import Mathlib

/-!
Shallow embedding of the OOK Raw Data Receiver categorizer pipeline
(`categorizer.cpp`, `categorizer_lib.cpp`, `categorizer.h`).

The duration sequence `v` is a `List Nat` indexed exactly like the C array
(position 0 is the unused slot in front of the 1-based data).  `uint16`
quantities are `Nat`; subtractions the C code performs on `uint16` operands
without a guard go through `sub16` (wrap-around at 2^16), guarded
subtractions use truncated `Nat` subtraction, and the `int32` accumulators
of the resorber are `Int`.  Loops of the source become structural
recursions; the histogram main loop and the barrier loop, whose
termination is not structural, take a fuel argument and report the
otherwise unused return code 99 on exhaustion, so that any terminating run
of the C code corresponds to a run of the model with the fixed fuel.
-/

set_option maxHeartbeats 4000000

set_option maxRecDepth 100000

namespace OOK

/-! ### Constants from categorizer.h -/

def CEIL : Nat := 65000

def NC : Nat := 8

def NA : Nat := 8

def NO : Nat := 16

def NM : Nat := 32

def NB : Nat := 32

def NH : Nat := 64

def BORDER_WIDTH : Nat := 8

def START_VAL : Nat := 50

def MAX_HOLES : Nat := 1

def FIRST_HITS : Nat := 2

def MIN_SIZE : Nat := 3

def C_OPT_2 : Nat := 2

def C_OPT_3 : Nat := 3

def C_OPT_4 : Nat := 4

def HIGH : Nat := 1

def LOW : Nat := 0

/-- `uint16` subtraction with wrap-around, used where the C source subtracts
    two `uint16` values without a guard establishing the order. -/
def sub16 (a b : Nat) : Nat := (a % 65536 + 65536 - b % 65536) % 65536

/-- mask with `MSB = 0b1111111111111110`: clears the reliability bit. -/
def mskMSB (a : Nat) : Nat := a &&& 65534

/-- reliability flag of a raw value: LSB set means UNRELIABLE. -/
def unreliable (x : Nat) : Bool := x % 2 = 1

/-! ### Data model: the `categories` record (categorizer.h)

The four co-indexed cluster arrays (`cluster_count`, `cluster_floor`,
`cluster_center`, `cluster_ceil`) plus `cluster_size` are represented by a
single list of `cluster` records; `outlier_ind`/`outlier_size` and
`aggreg_center`/`aggreg_size_2` likewise become lists. -/

structure cluster where
  count : Nat
  floor : Nat
  center : Nat
  ceil : Nat
deriving Repr, DecidableEq, Inhabited

structure categories where
  clusters : List cluster
  outlier_ind : List Nat
  aggreg_size_1 : Nat
  aggreg_center : List Nat
  separator_barrier : Nat
  inlier_count : Nat
deriving Repr, DecidableEq, Inhabited

def categories.cluster_size (z : categories) : Nat := z.clusters.length

def categories.outlier_size (z : categories) : Nat := z.outlier_ind.length

def categories.aggreg_size_2 (z : categories) : Nat := z.aggreg_center.length

def categories.cl (z : categories) (i : Nat) : cluster := z.clusters.getD i default

def categories.cluster_floor (z : categories) (i : Nat) : Nat := (z.cl i).floor

def categories.cluster_center (z : categories) (i : Nat) : Nat := (z.cl i).center

def categories.cluster_ceil (z : categories) (i : Nat) : Nat := (z.cl i).ceil

def categories.cluster_count (z : categories) (i : Nat) : Nat := (z.cl i).count

/-! ### 3.4 classifier (categorizer_lib.cpp)

Result is `(near, cat_ind, cat_val)` for the C out-parameters
`(return value, cat_ind, cat_val)`. -/

/-- scan for the first cluster whose ceil lies above `v_val`
    (the initial `for` loop of the classifier). -/
def ceilScan (cs : List cluster) (v_val : Nat) : Option Nat :=
  match cs with
  | [] => none
  | c :: rest =>
    if v_val < c.ceil then some 0
    else (ceilScan rest v_val).map (· + 1)

/-- the aggregation loop of the classifier: adopt an aggregation whenever its
    distance to `v_val` is strictly smaller than the running `delta`;
    aggregation `a_ind` is reported as combined index `csize + a_ind`. -/
def aggregScan (v_val csize : Nat) : List Nat → Nat → (Nat × Nat × Nat) → (Nat × Nat × Nat)
  | [], _, acc => acc
  | d1 :: rest, a_ind, (cat_ind, cat_val, delta) =>
    let d2 := if v_val > d1 then v_val - d1 else d1 - v_val
    if d2 < delta then
      aggregScan v_val csize rest (a_ind + 1) (csize + a_ind, d1, d2)
    else
      aggregScan v_val csize rest (a_ind + 1) (cat_ind, cat_val, delta)

/-- the classifier's final nearness test on the champion `(cat_ind, cat_val,
    delta)` left by the aggregation loop. -/
def classifierFinish (option : Nat) (r : Nat × Nat × Nat) : Bool × Nat × Nat :=
  if r.2.2 < r.2.1 >>> option then (true, r.1, r.2.1)
  else (false, r.1, r.2.1)

/-- label `CONTINUE_WITH_AGGREGATIONS` of the classifier. -/
def classifierContinue (z : categories) (v_val option cat_ind delta : Nat) :
    Bool × Nat × Nat :=
  if delta < z.cluster_center cat_ind >>> option then
    (true, cat_ind, z.cluster_center cat_ind)
  else
    classifierFinish option
      (aggregScan v_val z.cluster_size z.aggreg_center 0
        (cat_ind, z.cluster_center cat_ind, delta))

def classifier (z : categories) (v_val : Nat) (option : Nat) : Bool × Nat × Nat :=
  match ceilScan z.clusters v_val with
  | none =>
    -- v_val is higher than the highest cluster
    let cat_ind := z.cluster_size - 1
    classifierContinue z v_val option cat_ind (sub16 v_val (z.cluster_center cat_ind))
  | some cat_ind =>
    if z.cluster_floor cat_ind ≤ v_val then
      -- matching cluster
      (true, cat_ind, z.cluster_center cat_ind)
    else if cat_ind = 0 then
      classifierContinue z v_val option 0 (sub16 (z.cluster_center 0) v_val)
    else
      let d1 := sub16 (z.cluster_center cat_ind) v_val
      let d2 := sub16 v_val (z.cluster_center (cat_ind - 1))
      if d1 < d2 then classifierContinue z v_val option cat_ind d1
      else classifierContinue z v_val option (cat_ind - 1) d2

/-! ### 3.7 Helpers: sort, index_sort, merge (categorizer_lib.cpp) -/

/-- insert into an ascending list, after existing elements `≤ x`
    (the inner do-while of yaneurao's insertion sort is stable). -/
def insSorted (x : Nat) : List Nat → List Nat
  | [] => [x]
  | h :: t => if h > x then x :: h :: t else h :: insSorted x t

/-- 3.7.1 sort: insertion sort (ascending). -/
def sortL (l : List Nat) : List Nat := l.foldl (fun acc x => insSorted x acc) []

/-- insert an index into an index list ascending by key `v`. -/
def insIdxSorted (v : List Nat) (x : Nat) : List Nat → List Nat
  | [] => [x]
  | h :: t =>
    if v.getD h 0 > v.getD x 0 then x :: h :: t else h :: insIdxSorted v x t

/-- 3.7.2 index_sort: index insertion sort, ascending by the values `v`. -/
def index_sort (v : List Nat) (l : List Nat) : List Nat :=
  l.foldl (fun acc x => insIdxSorted v x acc) []

/-- 3.7.3 merge: merging of sorted arrays (fuel covers `na + nb` steps). -/
def mergeLAux : Nat → List Nat → List Nat → List Nat
  | 0, a, b => a ++ b
  | _ + 1, [], b => b
  | _ + 1, a, [] => a
  | fuel + 1, x :: a, y :: b =>
    if x < y then x :: mergeLAux fuel a (y :: b) else y :: mergeLAux fuel (x :: a) b

def mergeL (a b : List Nat) : List Nat := mergeLAux (a.length + b.length) a b

/-! ### 3.1 extractor (categorizer_lib.cpp) -/

/-- first scan of the extractor: advance `v_ind` to the next unreliable
    element at or before `v_stop_ind - 2`. -/
def extractorFindStart (v : List Nat) (v_stop_ind v_ind : Nat) (fuel : Nat) : Option Nat :=
  match fuel with
  | 0 => none
  | fuel + 1 =>
    if v_ind ≤ v_stop_ind - 2 then
      if unreliable (v.getD v_ind 0) then some v_ind
      else extractorFindStart v v_stop_ind (v_ind + 1) fuel
    else none

/-- second scan of the extractor: advance `v_ind` to the next reliable
    element at or before `v_stop_ind`. -/
def extractorFindStop (v : List Nat) (v_stop_ind v_ind : Nat) (fuel : Nat) : Option Nat :=
  match fuel with
  | 0 => none
  | fuel + 1 =>
    if v_ind ≤ v_stop_ind then
      if ¬ unreliable (v.getD v_ind 0) then some v_ind
      else extractorFindStop v v_stop_ind (v_ind + 1) fuel
    else none

/-- 3.1 extractor: returns `(ss_start_ind, ss_stop_ind, v_ind')` when a valid
    subsequence has been found, else `none`. -/
def extractor (v : List Nat) (v_stop_ind v_ind : Nat) : Option (Nat × Nat × Nat) :=
  match extractorFindStart v v_stop_ind v_ind (v_stop_ind + 2 - v_ind) with
  | none => none
  | some i =>
    match extractorFindStop v v_stop_ind i (v_stop_ind + 2 - i) with
    | none => none
    | some j => some (i - 1, j, j + 1)

/-! ### 3.2 resorber (categorizer_lib.cpp) -/

structure resorbResult where
  ok : Bool
  z : categories
  v : List Nat
  rel_delta : Nat
  rc : Nat
deriving Repr, DecidableEq

/-- the `int32` sum `(v[s]-ss_cat[0]) + v[s+1]+v[s+2]+v[s+3] + (v[s+4]-ss_cat[4])`. -/
def tripleSum (v ss_cat : List Nat) (ss_start_ind : Nat) : Int :=
  ((v.getD ss_start_ind 0 : Int) - (ss_cat.getD 0 0 : Int))
    + ((v.getD (ss_start_ind + 1) 0 : Int) + (v.getD (ss_start_ind + 2) 0 : Int)
        + (v.getD (ss_start_ind + 3) 0 : Int))
    + ((v.getD (ss_start_ind + 4) 0 : Int) - (ss_cat.getD 4 0 : Int))

/-- tightness option chosen by the resorber from the best-fit residual. -/
def resorbOption (rel_delta_bestfit : Nat) : Nat :=
  if rel_delta_bestfit > 100 then C_OPT_3 else C_OPT_4

/-- sum of the five window values (`v_sum` recomputed in the resorber). -/
def windowSum (v : List Nat) (ss_start_ind : Nat) : Nat :=
  ((List.range 5).map (fun k => v.getD (ss_start_ind + k) 0)).sum

/-- relative delta (per thousand) between the window sum and
    `ss_cat[0] + cat_val + ss_cat[4]`. -/
def resorbRelDelta (v ss_cat : List Nat) (ss_start_ind cat_val : Nat) : Nat :=
  (1000 * ((windowSum v ss_start_ind : Int)
      - ((ss_cat.getD 0 0 + cat_val + ss_cat.getD 4 0 : Nat) : Int)).natAbs)
    / windowSum v ss_start_ind

/-- the window overwrite `(ss_cat[0], cat_val, 0, 0, ss_cat[4])`. -/
def resorbWrite (v ss_cat : List Nat) (ss_start_ind cat_val : Nat) : List Nat :=
  (((((v.set ss_start_ind (ss_cat.getD 0 0)).set (ss_start_ind + 1) cat_val).set
      (ss_start_ind + 2) 0).set (ss_start_ind + 3) 0).set
      (ss_start_ind + 4) (ss_cat.getD 4 0))

/-- 3.2 resorber: resorb spikes and drops. -/
def resorber (z : categories) (v ss_cat : List Nat) (ss_start_ind ss_stop_ind : Nat)
    (rel_delta : Nat) : resorbResult :=
  if ss_stop_ind - ss_start_ind ≠ 4 then ⟨false, z, v, rel_delta, 0⟩
  else
    let rel_delta_bestfit := rel_delta
    let option := resorbOption rel_delta_bestfit
    let v_sum := tripleSum v ss_cat ss_start_ind
    if v_sum > (CEIL : Int) then ⟨false, z, v, rel_delta, 18⟩
    else
      let triple_val : Nat := (v_sum % 65536).toNat
      let c := classifier z triple_val option
      if c.1 = false then ⟨false, z, v, rel_delta, 0⟩
      else
        let cat_ind := c.2.1
        let cat_val := c.2.2
        let rd := resorbRelDelta v ss_cat ss_start_ind cat_val
        if rd > rel_delta_bestfit then ⟨false, z, v, rel_delta_bestfit, 0⟩
        else
          let v' := resorbWrite v ss_cat ss_start_ind cat_val
          if cat_ind ≥ z.cluster_size then
            if z.outlier_size ≥ NO then ⟨false, z, v', rd, 5⟩
            else ⟨true, { z with outlier_ind := z.outlier_ind ++ [ss_start_ind + 1] },
                  v', rd, 0⟩
          else ⟨true, z, v', rd, 0⟩

/-! ### 3.3 aggregator (categorizer_lib.cpp)

State `(z, rc)`; the outlier indices are first sorted by their raw values,
then grouped while `below + (above >> 3) > above`. -/

/-- inner do-while of the aggregator: accumulate one aggregation group.
    Returns `(o_ind, v_sum, v_count, exhausted)` where `exhausted` reports
    the `o_ind >= o_last_ind` exit ("goto ENDE"). -/
def aggGroup (v oind : List Nat) (o_last_ind : Nat) :
    Nat → Nat → Nat → Nat → (Nat × Nat × Nat × Bool)
  | 0, o_ind, v_sum, v_count => (o_ind, v_sum, v_count, true)
  | fuel + 1, o_ind, v_sum, v_count =>
    let v_below := v.getD (oind.getD o_ind 0) 0
    let v_sum := v_sum + v_below
    let v_count := v_count + 1
    if o_ind ≥ o_last_ind then
      -- "ENDE X": the index sequence is exhausted inside the group
      (o_ind, v_sum, v_count, true)
    else
      let o_ind := o_ind + 1
      let v_above := v.getD (oind.getD o_ind 0) 0
      if v_below + (v_above >>> 3) > v_above then
        aggGroup v oind o_last_ind fuel o_ind v_sum v_count
      else (o_ind, v_sum, v_count, false)

/-- inner+outer do-while loops of the aggregator over the sorted outlier
    index list; `o_ind` scans, `o_last_ind = outlier_size - 1`. -/
def aggLoop (v : List Nat) (oind : List Nat) (o_last_ind v_min_count : Nat)
    (z : categories) (o_ind : Nat) (fuel : Nat) : categories × Nat :=
  match fuel with
  | 0 => (z, 99)
  | fuel + 1 =>
    if z.aggreg_size_2 ≥ NC then (z, 4)
    else
      let g := aggGroup v oind o_last_ind (o_last_ind + 2) o_ind 0 0
      let o_ind' := g.1
      let v_sum := g.2.1
      let v_count := g.2.2.1
      if g.2.2.2 then
        -- exhausted inside the group ("goto ENDE")
        let center := v_sum / v_count
        if v_count > v_min_count then
          ({ z with aggreg_center := z.aggreg_center ++ [mskMSB center] }, 0)
        else (z, 0)
      else
        let center := v_sum / v_count
        let z :=
          if v_count > v_min_count then
            { z with aggreg_center := z.aggreg_center ++ [mskMSB center] }
          else z
        if o_ind' < o_last_ind then aggLoop v oind o_last_ind v_min_count z o_ind' fuel
        else
          -- after the outer do-while: last aggregation of a single value
          if o_ind' = o_last_ind then
            if z.aggreg_size_2 ≥ NC then (z, 4)
            else
              let center := v.getD (oind.getD o_ind' 0) 0
              if 1 > v_min_count then
                ({ z with aggreg_center := z.aggreg_center ++ [mskMSB center] }, 0)
              else (z, 0)
          else (z, 17)

/-- 3.3 aggregator: aggregate outliers in special "aggreg" clusters;
    starts from scratch at `aggreg_size_1`. -/
def aggregator (z : categories) (v : List Nat) (v_min_count : Nat) : categories × Nat :=
  let z := { z with aggreg_center := z.aggreg_center.take z.aggreg_size_1 }
  if z.outlier_size < 1 then (z, 0)
  else
    let z := { z with outlier_ind := index_sort v z.outlier_ind }
    aggLoop v z.outlier_ind (z.outlier_size - 1) v_min_count z 0 (z.outlier_size + 1)

/-! ### 2.1 CLUSTERER (categorizer.cpp): histogram- and post- clustering -/

/-- the scan indices `lo, lo+2, ..., ≤ hi` of one polarity. -/
def stride2Aux : Nat → Nat → Nat → List Nat
  | 0, _, _ => []
  | fuel + 1, lo, hi => if lo ≤ hi then lo :: stride2Aux fuel (lo + 2) hi else []

def stride2 (lo hi : Nat) : List Nat := stride2Aux (hi + 1 - lo) lo hi

def zeros32 : List Nat := List.replicate NB 0

/-- set bins `[a, b)` to zero. -/
def zeroRange (bins : List Nat) (a b : Nat) : List Nat :=
  (List.range NB).foldl (fun acc j => if a ≤ j ∧ j < b then acc.set j 0 else acc) bins

/-- state of one histogram pass while the bins are filled. -/
structure FillSt where
  bins : List Nat
  hits : List Nat
  nf : Nat
  rc : Nat
deriving Repr, DecidableEq

/-- 2.1.1.2.1 bin filling: one scan index. -/
def fillStep (v : List Nat) (h_floor h_ceil w2 : Nat) (st : FillSt) (i : Nat) : FillSt :=
  if st.rc ≠ 0 then st
  else
    let v_val := v.getD i 0
    if v_val < h_floor then st
    else if unreliable (v.getD i 0) then st
    else if unreliable (v.getD (i + 1) 0) then st
    else if unreliable (v.getD (i - 1) 0) then st
    else if v_val ≥ h_ceil then
      { st with nf := if v_val < st.nf then v_val else st.nf }
    else
      let b := (v_val - h_floor) >>> w2
      if b ≥ NB then { st with rc := 10 }
      else if st.bins.getD b 0 ≥ 255 then st
      else
        let bins := st.bins.set b (st.bins.getD b 0 + 1)
        if st.hits.length < NH then
          if bins.getD b 0 ≤ FIRST_HITS then { st with bins := bins, hits := st.hits ++ [i] }
          else { st with bins := bins }
        else { st with bins := bins, rc := 6 }

/-- 2.1.1.2.1 bin filling over the whole trusted interior;
    `nf` starts at `CEIL` (the sentinel for "no value above this histogram"). -/
def binFill (v : List Nat) (v_start v_stop h_floor h_ceil w2 : Nat) (bins : List Nat) :
    FillSt :=
  (stride2 (v_start + BORDER_WIDTH) (v_stop - BORDER_WIDTH)).foldl
    (fillStep v h_floor h_ceil w2) ⟨bins, [], CEIL, 0⟩

/-- "START-BIN" search: index of the first occupied bin at or after `p`. -/
def firstNEAux (bins : List Nat) : Nat → Nat → Option Nat
  | 0, _ => none
  | fuel + 1, p =>
    if p < NB then
      if bins.getD p 0 = 0 then firstNEAux bins fuel (p + 1) else some p
    else none

def firstNE (bins : List Nat) (p : Nat) : Option Nat := firstNEAux bins (NB + 1) p

/-- "STOP_BIN_SEQUENCE" search from bin `b`: more than `MAX_HOLES`
    consecutive empty bins end the cluster interval; single-bin gaps are
    absorbed, each counted in `inliers`.  Returns `(stop?, inliers)`. -/
def stopSearchAux (bins : List Nat) : Nat → Nat → Nat → Nat → Option Nat × Nat
  | 0, _, _, inliers => (none, inliers)
  | fuel + 1, b, c_hole, inliers =>
    if b < NB then
      if bins.getD b 0 > 0 then
        stopSearchAux bins fuel (b + 1) 0 (if c_hole > 0 then inliers + 1 else inliers)
      else if c_hole + 1 > MAX_HOLES then (some (b - MAX_HOLES), inliers)
      else stopSearchAux bins fuel (b + 1) (c_hole + 1) inliers
    else (none, inliers)

def stopSearch (bins : List Nat) (b c_hole inliers : Nat) : Option Nat × Nat :=
  stopSearchAux bins (NB + 1) b c_hole inliers

/-- overlap heuristic: three-bin sliding sum over the run; a flip from
    descending back to ascending by more than `+3` truncates the run at
    `b - 2` (returned as `some`). -/
def overlapScanAux (bins : List Nat) (stop : Nat) : Nat → Nat → Bool → Nat → Nat →
    Option Nat
  | 0, _, _, _, _ => none
  | fuel + 1, b, ascending, c_prev, c_count =>
    if b < stop then
      let c_count := c_count + bins.getD b 0
      if ascending then
        overlapScanAux bins stop fuel (b + 1) (¬ (c_count + 3 < c_prev)) c_count
          (c_count - bins.getD (b - 2) 0)
      else
        if c_count > c_prev + 3 then some (b - 2)
        else overlapScanAux bins stop fuel (b + 1) false c_count
          (c_count - bins.getD (b - 2) 0)
    else none

def overlapScan (bins : List Nat) (stop b : Nat) (ascending : Bool)
    (c_prev c_count : Nat) : Option Nat :=
  overlapScanAux bins stop (NB + 1) b ascending c_prev c_count

/-- number of elements and weighted bin mean of the run `[q, stop)`. -/
def runStats (bins : List Nat) (q stop : Nat) : Nat × Nat :=
  ((List.range (stop - q)).foldl
    (fun acc j => (acc.1 + bins.getD (q + j) 0, acc.2 + (j + 1) * bins.getD (q + j) 0))
    (0, 0))

/-- state of the bin-clustering loop (and of the histogram loop). -/
structure CluSt where
  clusters : List cluster
  outlier_ind : List Nat
  inlier_count : Nat
  overlap : Bool
  outlier_p : Bool
  bins : List Nat
  nf : Nat
  rc : Nat
deriving Repr, DecidableEq

/-- 2.1.1.2.2 bin clustering: walk the bins from position `p`, linking bins
    separated by at most one empty bin, truncating on the overlap heuristic,
    materializing runs of at least `MIN_SIZE` elements, and requeueing runs
    that touch the top of the histogram into the next histogram. -/
def binCluster (h_floor w2 : Nat) (st : CluSt) (p : Nat) : Nat → CluSt
  | 0 => { st with rc := 99 }
  | fuel + 1 =>
    if p < NB then
      match firstNE st.bins p with
      | none => st
      | some q =>
        if q = NB - 1 then
          -- start bin adjacent to the next histogram: requeue this bin
          { st with nf := ((q <<< w2) + h_floor) % 65536, bins := st.bins.set q 0 }
        else
          match stopSearch st.bins (q + 1) 0 st.inlier_count with
          | (none, inl) =>
            -- no stop bin in this histogram: requeue the whole run
            { st with inlier_count := inl, nf := ((q <<< w2) + h_floor) % 65536,
                      bins := zeroRange st.bins q NB }
          | (some stop0, inl) =>
            let st := { st with inlier_count := inl }
            let ov :=
              if stop0 - q ≥ 6 then
                overlapScan st.bins stop0 (q + 2) true 0
                  (st.bins.getD q 0 + st.bins.getD (q + 1) 0)
              else none
            let stop := match ov with | some s => s | none => stop0
            let st := match ov with | some _ => { st with overlap := true } | none => st
            let stats := runStats st.bins q stop
            let c_count := stats.1
            let bin_mean := stats.2
            if c_count < MIN_SIZE then
              -- low density: the bins are kept for outlier sieving
              binCluster h_floor w2 { st with outlier_p := true } stop fuel
            else
              let bw := 1 <<< w2
              let c :=
                { count := c_count
                  floor := ((q <<< w2) + h_floor) % 65536
                  center := mskMSB ((q <<< w2) + ((bin_mean <<< w2) / c_count)
                              + h_floor - (bw >>> 1))
                  ceil := ((stop <<< w2) + h_floor) % 65536 : cluster }
              let st := { st with clusters := st.clusters ++ [c],
                                  bins := zeroRange st.bins q stop }
              if st.clusters.length ≥ NC then { st with rc := 3 }
              else binCluster h_floor w2 st stop fuel
    else st

/-- 2.1.1.2.3 outlier sieving: every first-hit index whose bin is still
    occupied becomes an outlier (bounded by `NO`). -/
def sieveStep (v : List Nat) (h_floor w2 : Nat) (st : CluSt) (i : Nat) : CluSt :=
  if st.rc ≠ 0 then st
  else
    let v_val := v.getD i 0
    let b := (v_val - h_floor) >>> w2
    if st.bins.getD b 0 > 0 then
      if st.outlier_ind.length ≥ NO then { st with rc := 5 }
      else { st with outlier_ind := st.outlier_ind ++ [i],
                     bins := st.bins.set b (st.bins.getD b 0 - 1) }
    else st

def sieve (v : List Nat) (h_floor w2 : Nat) (hits : List Nat) (st : CluSt) : CluSt :=
  hits.foldl (sieveStep v h_floor w2) st

/-- find bin width for the next histogram: double `bin_width` until the next
    floor lies below the cumulated ceiling. -/
def widen (nf : Nat) : Nat → Nat → Nat → Nat
  | 0, w2, _ => w2
  | fuel + 1, w2, hw =>
    if nf ≥ hw then widen nf fuel (w2 + 1) (hw + NB * (1 <<< (w2 + 1)))
    else w2

/-- 2.1.1.2 the histogram main loop.  `st.nf` holds the floor value of the
    histogram about to be processed, `w2` the 2-log of its bin width. -/
def histLoop (v : List Nat) (v_start v_stop : Nat) (w2 : Nat) (st : CluSt) :
    Nat → CluSt × Nat
  | 0 => ({ st with rc := 99 }, w2)
  | fuel + 1 =>
    let h_floor := st.nf
    let bw := 1 <<< w2
    let h_ceil := if h_floor + NB * bw > CEIL then CEIL else h_floor + NB * bw
    let f := binFill v v_start v_stop h_floor h_ceil w2 st.bins
    if f.rc ≠ 0 then ({ st with bins := f.bins, rc := f.rc }, w2)
    else
      let st1 := { st with bins := f.bins, nf := f.nf, outlier_p := false }
      let st2 := binCluster h_floor w2 st1 0 (NB + 2)
      if st2.rc ≠ 0 then (st2, w2)
      else
        let st3 := if st2.outlier_p then sieve v h_floor w2 f.hits st2 else st2
        if st3.rc ≠ 0 then (st3, w2)
        else if st3.nf = CEIL then (st3, w2)
        else
          let nf2 := sub16 st3.nf bw
          let w2' := widen nf2 80 w2 h_ceil
          histLoop v v_start v_stop w2' { st3 with nf := nf2 } fuel

/-! #### 2.1.2 Post-Clustering -/

/-- the border indices processed in 2.1.2.1.1: the warm-up zone and, after
    the in-loop jump `v_ind := v_stop - BORDER_WIDTH + 2`, the cool-down
    zone.  `none` when the C loop would not terminate. -/
def borderIdxAux (v_start v_stop v_ind : Nat) : Nat → Option (List Nat)
  | 0 => none
  | fuel + 1 =>
    if v_ind ≤ v_stop then
      let j := if v_ind = v_start + BORDER_WIDTH then v_stop - BORDER_WIDTH + 2 else v_ind
      match borderIdxAux v_start v_stop (j + 2) fuel with
      | none => none
      | some l => some (j :: l)
    else some []

def borderIdx (v_start v_stop : Nat) : Option (List Nat) :=
  borderIdxAux v_start v_stop v_start (v_stop + 16)

/-- 2.1.2.1.1 border values classification: unclassifiable trusted border
    values become outliers, except the very first HIGH (`v_ind > 1`). -/
def borderStep (v : List Nat) (v_start v_stop : Nat) (zr : categories × Nat) (i : Nat) :
    categories × Nat :=
  let z := zr.1
  if zr.2 ≠ 0 then zr
  else if unreliable (v.getD i 0) then zr
  else if i < v_stop ∧ unreliable (v.getD (i + 1) 0) then zr
  else if i > v_start ∧ unreliable (v.getD (i - 1) 0) then zr
  else if (classifier z (v.getD i 0) C_OPT_3).1 then zr
  else if i > 1 then
    if z.outlier_size ≥ NO then (z, 5)
    else ({ z with outlier_ind := z.outlier_ind ++ [i] }, 0)
  else zr

/-- the separator-barrier conditional: `10 * b` below `CEIL/10`, else `CEIL`. -/
def sepOf (b : Nat) : Nat := if b < CEIL / 10 then 10 * b else CEIL

/-- inner loop of 2.1.2.2: highest outlier value below the current barrier. -/
def barrierNew (v : List Nat) (oind : List Nat) (sep : Nat) : Nat :=
  oind.foldl
    (fun acc i =>
      let v_val := v.getD i 0
      if v_val < sep ∧ v_val > acc then v_val else acc) 0

/-- 2.1.2.2 the barrier loop; `sepAcc` is the field value assigned so far. -/
def barrierLoop (v : List Nat) (oind : List Nat) : Nat → Nat → Nat → Nat → Nat
  | _, _, sepAcc, 0 => sepAcc
  | v_old, v_new, sepAcc, fuel + 1 =>
    if v_new > v_old then
      barrierLoop v oind v_new (barrierNew v oind (sepOf v_new)) (sepOf v_new) fuel
    else sepAcc

def sepBarrier (v : List Nat) (oind : List Nat) (start : Nat) : Nat :=
  barrierLoop v oind 0 start 0 65002

/-- claim-side description of one barrier-raising step: the highest outlier
    value below the (saturated) tenfold barrier. -/
def specStep (v oind : List Nat) (b : Nat) : Nat :=
  ((oind.map (fun i => v.getD i 0)).filter (fun x => x < sepOf b)).foldl max 0

/-- claim-side description of a strict barrier raise. -/
def barRaise (v oind : List Nat) (a b : Nat) : Prop := b = specStep v oind a ∧ a < b

/-- 2.1.2 post-clustering: border processing, L1 aggregation, outlier
    pruning, separator barrier, outlier index sort. -/
def postCluster (v : List Nat) (v_start v_stop : Nat) (z : categories) :
    categories × Nat :=
  match borderIdx v_start v_stop with
  | none => (z, 99)
  | some idxs =>
    let br := idxs.foldl (borderStep v v_start v_stop) (z, 0)
    if br.2 ≠ 0 then br
    else
      let ag := aggregator br.1 v MIN_SIZE
      let z1 := { ag.1 with aggreg_size_1 := ag.1.aggreg_size_2 }
      if ag.2 ≠ 0 then (z1, ag.2)
      else
        let z2 := { z1 with
          outlier_ind := z1.outlier_ind.filter
            (fun i => ¬ (classifier z1 (v.getD i 0) C_OPT_3).1) }
        let z3 := { z2 with
          separator_barrier :=
            sepBarrier v z2.outlier_ind (z2.cluster_ceil (z2.cluster_size - 1)) }
        ({ z3 with outlier_ind := sortL z3.outlier_ind }, 0)

/-- 2.1 clusterer: histogram clustering followed by post-clustering.
    Returns `(z, overlap_flag, rc)`. -/
def clusterer (v : List Nat) (v_start v_stop : Nat) (overlap_in : Bool) :
    categories × Bool × Nat :=
  let st0 : CluSt := ⟨[], [], 0, overlap_in, false, zeros32, START_VAL, 0⟩
  let hl := histLoop v v_start v_stop 4 st0 70000
  let st := hl.1
  let z : categories :=
    { clusters := st.clusters, outlier_ind := st.outlier_ind, aggreg_size_1 := 0,
      aggreg_center := [], separator_barrier := 0, inlier_count := st.inlier_count }
  if st.rc ≠ 0 then (z, st.overlap, st.rc)
  else if z.cluster_size = 0 then (z, st.overlap, 7)
  else
    let pc := postCluster v v_start v_stop z
    (pc.1, st.overlap, pc.2)

/-! ### 2.2 CORRECTOR (categorizer.cpp) -/

/-- polarity selection `z[v_ind & LSB]`: odd indices are HIGH. -/
def getZ (zH zL : categories) (i : Nat) : categories := if i % 2 = 1 then zH else zL

def setZ (zH zL : categories) (i : Nat) (z : categories) : categories × categories :=
  if i % 2 = 1 then (z, zL) else (zH, z)

/-- 2.2.1 merged-outlier scan, descending from index `n - 1`; `z` is read
    only.  Returns `(v, m_outlier_ind, oob)`, where `oob` records that the
    adjacent-outlier check read `m_outlier_ind[m_ind - 1]` with `m_ind = 0`. -/
def mScan (zH zL : categories) (v_start v_stop : Nat) :
    Nat → List Nat → List Nat → Bool → Nat → List Nat × List Nat × Bool
  | 0, v, m, oob, _ => (v, m, oob)
  | _ + 1, v, m, oob, 0 => (v, m, oob)
  | fuel + 1, v, m, oob, k + 1 =>
    let curr_v_ind := m.getD k 0
    if v.getD curr_v_ind 0 > (getZ zH zL curr_v_ind).separator_barrier then
      -- top-outlier: keep value, keep index
      mScan zH zL v_start v_stop fuel v m oob k
    else
      let prev_v_ind := curr_v_ind - 1
      let next_v_ind := curr_v_ind + 1
      let cPrev := classifier (getZ zH zL prev_v_ind) (v.getD prev_v_ind 0) C_OPT_2
      let cNext := classifier (getZ zH zL next_v_ind) (v.getD next_v_ind 0) C_OPT_2
      let cCurr := classifier (getZ zH zL curr_v_ind) (v.getD curr_v_ind 0) C_OPT_2
      let flag0 := if prev_v_ind ≥ v_start then cPrev.1 else false
      let flag1 := if next_v_ind ≤ v_stop then cNext.1 && flag0 else flag0
      let flag := cCurr.1 || flag1
      let t_center_sum : Nat :=
        (if prev_v_ind ≥ v_start then cPrev.2.2 else 0)
          + (if next_v_ind ≤ v_stop then cNext.2.2 else 0)
      let v_sum : Nat :=
        v.getD curr_v_ind 0 + (if prev_v_ind ≥ v_start then v.getD prev_v_ind 0 else 0)
          + (if next_v_ind ≤ v_stop then v.getD next_v_ind 0 else 0)
      let rel_delta :=
        (1000 * ((v_sum : Int) - ((t_center_sum + v.getD curr_v_ind 0 : Nat) : Int)).natAbs)
          / v_sum
      let rel_delta_cor :=
        (1000 * ((v_sum : Int) - ((t_center_sum + cCurr.2.2 : Nat) : Int)).natAbs) / v_sum
      if (¬ flag) ∨ rel_delta < rel_delta_cor then
        -- resistant outlier: keep value, keep index
        mScan zH zL v_start v_stop fuel v m oob k
      else
        -- correctable outlier: overwrite the triple with the centers
        let v1 := if prev_v_ind ≥ v_start then v.set prev_v_ind (mskMSB cPrev.2.2) else v
        let v2 := v1.set curr_v_ind (mskMSB cCurr.2.2)
        let v3 := if next_v_ind ≤ v_stop then v2.set next_v_ind (mskMSB cNext.2.2) else v2
        let m1 := m.set k 0
        let oob := oob || decide (k = 0)
        if 1 ≤ k ∧ m1.getD (k - 1) 0 = prev_v_ind then
          mScan zH zL v_start v_stop fuel (v3.set prev_v_ind cPrev.2.2)
            (m1.set (k - 1) 0) oob (k - 1)
        else mScan zH zL v_start v_stop fuel v3 m1 oob k

/-- 2.2.2.1 unreliable top-values preprocessing over one window: values above
    the polarity barrier become outliers and are re-aggregated on the fly.
    Returns `(zH, zL, rc)`; only the outlier overflow stops the walk, the
    aggregator return code is recorded but not checked (as in the source). -/
def ssTop (v : List Nat) : List Nat → categories × categories × Nat →
    categories × categories × Nat
  | [], st => st
  | i :: rest, (zH, zL, rc) =>
    if rc = 5 then (zH, zL, rc)
    else
      let z := getZ zH zL i
      if v.getD i 0 > z.separator_barrier then
        if z.outlier_size ≥ NO then (zH, zL, 5)
        else
          let z1 := { z with outlier_ind := z.outlier_ind ++ [i] }
          let ag := aggregator z1 v 0
          let p := setZ zH zL i ag.1
          ssTop v rest (p.1, p.2, ag.2)
      else ssTop v rest (zH, zL, rc)

/-- 2.2.2.2 best-fit evaluation over one window: nearest category values,
    combined classifiability flag and relative delta. -/
def ssBestFit (zH zL : categories) (v : List Nat) (idxs : List Nat) :
    Bool × List Nat × Nat :=
  let r := idxs.foldl
    (fun (acc : Bool × List Nat × Nat × Nat) i =>
      let c := classifier (getZ zH zL i) (v.getD i 0) C_OPT_3
      (c.1 && acc.1, acc.2.1 ++ [c.2.2], acc.2.2.1 + v.getD i 0, acc.2.2.2 + c.2.2))
    (true, [], 0, 0)
  let rel_delta := (1000 * ((r.2.2.1 : Int) - (r.2.2.2 : Int)).natAbs) / r.2.2.1
  (r.1, r.2.1, rel_delta)

/-- best-fit overwrite: each window element replaced by its nearest center. -/
def ssOverwrite (v : List Nat) (ss_start : Nat) (ss_cat : List Nat) : List Nat :=
  (List.range ss_cat.length).foldl
    (fun acc j => acc.set (ss_start + j) (ss_cat.getD j 0)) v

/-- result state of the corrector. -/
structure CorrOut where
  zH : categories
  zL : categories
  v : List Nat
  rc : Nat
  oob : Bool
  windows : List (Nat × Nat)
deriving Repr, DecidableEq

/-- 2.2.2 untrusted subsequences correction: walk the extractor windows.
    `windows` is the list of extracted `(ss_start_ind, ss_stop_ind)` pairs. -/
def ssPass (v_start v_stop : Nat) (zH zL : categories) (v : List Nat) (ext : Nat)
    (oob : Bool) (windows : List (Nat × Nat)) (rc : Nat) : Nat → CorrOut
  | 0 => ⟨zH, zL, v, 99, oob, windows⟩
  | fuel + 1 =>
    match extractor v v_stop ext with
    | none => ⟨zH, zL, v, rc, oob, windows⟩
    | some (ss_start, ss_stop, ext') =>
      let windows := windows ++ [(ss_start, ss_stop)]
      let ss_len := ss_stop - ss_start + 1
      if ss_len < 4 ∨ ss_len > 5 then ⟨zH, zL, v, 2, oob, windows⟩
      else
        let idxs := (List.range ss_len).map (fun j => ss_start + j)
        let t := ssTop v idxs (zH, zL, rc)
        if t.2.2 = 5 then ⟨t.1, t.2.1, v, 5, oob, windows⟩
        else
          let zH := t.1
          let zL := t.2.1
          let rc := t.2.2
          let bf := ssBestFit zH zL v idxs
          let flag := bf.1
          let ss_cat := bf.2.1
          let rel_delta := bf.2.2
          if flag then
            ssPass v_start v_stop zH zL (ssOverwrite v ss_start ss_cat) ext' oob
              windows rc fuel
          else
            let r := resorber (getZ zH zL (ss_start + 1)) v ss_cat ss_start ss_stop
                       rel_delta
            let p := setZ zH zL (ss_start + 1) r.z
            if r.ok then
              ssPass v_start v_stop p.1 p.2 r.v ext' oob windows r.rc fuel
            else
              if r.rc ≠ 0 then ⟨p.1, p.2, r.v, r.rc, oob, windows⟩
              else
                ssPass v_start v_stop p.1 p.2 (ssOverwrite r.v ss_start ss_cat) ext' oob
                  windows r.rc fuel

/-- 2.2.1 outlier correction: merge, scan, split, re-aggregate.  The second
    component is `true` when the corrector returns right here (merge overflow,
    empty merged list, or HIGH aggregation error); otherwise execution falls
    through to 2.2.2 with the returned state (the LOW aggregator's return
    code is only checked there, as in the source). -/
def outlierCorrection (zH zL : categories) (v : List Nat) (v_start v_stop : Nat) :
    CorrOut × Bool :=
  if zH.outlier_size > 0 ∨ zL.outlier_size > 0 then
    if zH.outlier_size + zL.outlier_size > NM then (⟨zH, zL, v, 16, false, []⟩, true)
    else
      let m := mergeL zH.outlier_ind zL.outlier_ind
      if m.length = 0 then (⟨zH, zL, v, 0, false, []⟩, true)
      else
        let sc := mScan zH zL v_start v_stop m.length v m false m.length
        let v1 := sc.1
        let m1 := sc.2.1
        let mH := m1.filter (fun x => decide (x ≠ 0) && decide (x % 2 = HIGH % 2))
        let mL := m1.filter (fun x => decide (x ≠ 0) && decide (x % 2 = LOW % 2))
        let zH1 := { zH with outlier_ind := mH }
        let zL1 := { zL with outlier_ind := mL }
        let agH := aggregator zH1 v1 0
        if agH.2 ≠ 0 then (⟨agH.1, zL1, v1, agH.2, sc.2.2, []⟩, true)
        else
          let agL := aggregator zL1 v1 0
          (⟨agH.1, agL.1, v1, agL.2, sc.2.2, []⟩, false)
  else (⟨zH, zL, v, 0, false, []⟩, false)

/-- 2.2 corrector: outlier correction followed by untrusted subsequence
    correction. -/
def corrector (zH zL : categories) (v : List Nat) (v_length unreliable_count : Nat) :
    CorrOut :=
  if zH.cluster_size = 0 ∨ zH.cluster_size = 0 then ⟨zH, zL, v, 7, false, []⟩
  else
    let v_start := 1
    let v_stop := v_length
    let oc := outlierCorrection zH zL v v_start v_stop
    if oc.2 then oc.1
    else
      let s := oc.1
      if s.rc ≠ 0 then s
      else if unreliable_count > 0 then
        ssPass v_start v_stop s.zH s.zL s.v (v_start + BORDER_WIDTH) s.oob [] s.rc
          (v_stop + 2)
      else s

/-! ### 3.5 sequence_printer (categorizer_lib.cpp)

Modelled as the characters it prints: one cell per value of each polarity
row, plus the reliability marking rows. -/

/-- the printed length: the two sentinel values after `v_length` are
    included when the trace ended normally (`(x, CEIL)` instead of `(0,0)`). -/
def printLength (v : List Nat) (v_length : Nat) : Nat :=
  if v.getD (v_length + 1) 0 ≠ 0 ∧ v.getD (v_length + 2) 0 ≠ 0 then v_length + 2
  else v_length

/-- one cell of the categorized sequence row. -/
def printCell (z : categories) (v : List Nat) (i : Nat) : Char :=
  if v.getD i 0 = 0 then ' '
  else if v.getD i 0 ≥ z.separator_barrier then '*'
  else
    let c := classifier z (v.getD i 0) C_OPT_3
    if c.1 then
      if c.2.1 < 10 then Char.ofNat (48 + c.2.1) else Char.ofNat (87 + c.2.1)
    else if c.2.1 = 0 ∧ v.getD i 0 < c.2.2 then '-'
    else '?'

/-- one categorized row: polarity `z_ind` starts at index `2 - z_ind`. -/
def printRow (z : categories) (v : List Nat) (v_length z_ind : Nat) : List Char :=
  (stride2 (2 - z_ind) (printLength v v_length)).map (printCell z v)

/-- one reliability marking row (`!` marks an unreliable value). -/
def relRow (v : List Nat) (v_length z_ind : Nat) : List Char :=
  (stride2 (2 - z_ind) (printLength v v_length)).map
    (fun i => if v.getD i 0 = 0 then ' ' else if unreliable (v.getD i 0) then '!' else ' ')

/-- 3.5 sequence_printer output: reliability and category rows, HIGH and LOW. -/
def seqPrinter (zH zL : categories) (v : List Nat) (v_length : Nat) :
    List Char × List Char × List Char × List Char :=
  (relRow v v_length HIGH, printRow zH v v_length HIGH,
   printRow zL v v_length LOW, relRow v v_length LOW)

/-! ### The categorizer driver (categorizer.cpp) -/

structure CatOut where
  rc : Nat
  zH : categories
  zL : categories
  v : List Nat
  correctorInvoked : Bool
  printed : List Char × List Char × List Char × List Char
  oob : Bool
  windows : List (Nat × Nat)
deriving Repr, DecidableEq

/-- 2. categorizer: clusterer per polarity, corrector unless a cluster
    overlap was flagged, then the sequence printer.  `correctorInvoked`
    records whether the corrector ran; `oob` and `windows` forward the
    corrector diagnostics. -/
def categorizer (v : List Nat) (sequence_length unreliable_count : Nat) : CatOut :=
  let cH := clusterer v (2 - HIGH) (sequence_length - HIGH) false
  if cH.2.2 ≠ 0 then ⟨cH.2.2, cH.1, default, v, false, ([], [], [], []), false, []⟩
  else
    let cL := clusterer v (2 - LOW) (sequence_length - LOW) cH.2.1
    if cL.2.2 ≠ 0 then ⟨cL.2.2, cH.1, cL.1, v, false, ([], [], [], []), false, []⟩
    else
      let cluster_overlap := cL.2.1
      if ¬ cluster_overlap then
        let co := corrector cH.1 cL.1 v sequence_length unreliable_count
        if co.rc ≠ 0 then
          ⟨co.rc, co.zH, co.zL, co.v, true, ([], [], [], []), co.oob, co.windows⟩
        else
          ⟨0, co.zH, co.zL, co.v, true, seqPrinter co.zH co.zL co.v sequence_length,
           co.oob, co.windows⟩
      else
        ⟨0, cH.1, cL.1, v, false, seqPrinter cH.1 cL.1 v sequence_length, false, []⟩

/-! ## Theorems -/

/-! ### C3: classifier on values inside a cluster range -/

theorem ceilScan_eq_some (v_val : Nat) :
    ∀ (cs : List cluster) (k : Nat), k < cs.length →
      v_val < (cs.getD k default).ceil →
      (∀ i, i < k → ¬ v_val < (cs.getD i default).ceil) →
      ceilScan cs v_val = some k := by
  intro cs
  induction cs with
  | nil => intro k hk; simp at hk
  | cons c rest ih =>
    intro k hk hlt hprev
    cases k with
    | zero =>
      simp only [List.getD_cons_zero] at hlt
      simp [ceilScan, hlt]
    | succ j =>
      have h0 : ¬ v_val < c.ceil := by
        have := hprev 0 (Nat.succ_pos j)
        simpa using this
      have hrest : ceilScan rest v_val = some j := by
        apply ih
        · simpa using hk
        · simpa using hlt
        · intro i hi
          have := hprev (i + 1) (Nat.succ_lt_succ hi)
          simpa using this
      simp [ceilScan, h0, hrest]

/-- C3.  For every category set with at least one cluster whose clusters are
sorted ascending and non-overlapping, and every value `v` with
`cluster_floor[k] ≤ v < cluster_ceil[k]`, the classifier returns `true` with
`cat_ind = k` and `cat_val = cluster_center[k]`, for every tightness option. -/
theorem c3_classifier_in_range (z : categories) (k v_val opt : Nat)
    (hk : k < z.cluster_size)
    (hlo : z.cluster_floor k ≤ v_val) (hhi : v_val < z.cluster_ceil k)
    (hsort : ∀ i j, i < j → j < z.cluster_size → z.cluster_ceil i ≤ z.cluster_floor j) :
    classifier z v_val opt = (true, k, z.cluster_center k) := by
  have hscan : ceilScan z.clusters v_val = some k := by
    apply ceilScan_eq_some v_val z.clusters k hk hhi
    intro i hi
    have h1 : z.cluster_ceil i ≤ z.cluster_floor k := hsort i k hi hk
    have h2 : z.cluster_ceil i ≤ v_val := le_trans h1 hlo
    exact fun hlt => absurd (lt_of_lt_of_le hlt h2) (lt_irrefl _)
  unfold classifier
  rw [hscan]
  simp [hlo]

/-- C3 witness at a concrete category set. -/
def zW : categories :=
  { clusters := [⟨5, 100, 110, 120⟩, ⟨4, 300, 310, 330⟩],
    outlier_ind := [], aggreg_size_1 := 0, aggreg_center := [],
    separator_barrier := 3300, inlier_count := 0 }

theorem c3_classifier_in_range_witness :
    classifier zW 305 C_OPT_4 = (true, 1, 310) := by
  have hsort : ∀ i j, i < j → j < zW.cluster_size →
      zW.cluster_ceil i ≤ zW.cluster_floor j := by
    intro i j hij hj
    have hsz : zW.cluster_size = 2 := rfl
    rw [hsz] at hj
    have hj1 : j = 1 := by omega
    have hi0 : i = 0 := by omega
    subst hj1; subst hi0; decide
  have h := c3_classifier_in_range zW 1 305 C_OPT_4 (by decide) (by decide) (by decide)
    hsort
  simpa [zW] using h

/-! ### C2, C5, C6: the resorber -/

theorem getDset_eq (l : List Nat) (i x : Nat) (h : i < l.length) :
    (l.set i x).getD i 0 = x := by
  simp [List.getD_eq_getElem?_getD, List.getElem?_set_self, h]

theorem getDset_ne (l : List Nat) (x : Nat) {i j : Nat} (h : i ≠ j) :
    (l.set i x).getD j 0 = l.getD j 0 := by
  simp [List.getD_eq_getElem?_getD, List.getElem?_set_ne h]

/-- on a successful resorption the raw data was rewritten by `resorbWrite`
    with the classified center of the virtual triple, and the returned
    residual is the resorber residual, not above the incoming best-fit. -/
theorem resorber_ok_shape (z : categories) (v ss_cat : List Nat) (s e rd : Nat)
    (hok : (resorber z v ss_cat s e rd).ok = true) :
    (resorber z v ss_cat s e rd).v
        = resorbWrite v ss_cat s
            (classifier z ((tripleSum v ss_cat s) % 65536).toNat (resorbOption rd)).2.2 ∧
    (resorber z v ss_cat s e rd).rel_delta
        = resorbRelDelta v ss_cat s
            (classifier z ((tripleSum v ss_cat s) % 65536).toNat (resorbOption rd)).2.2 ∧
    (resorber z v ss_cat s e rd).rel_delta ≤ rd := by
  unfold resorber at hok ⊢
  by_cases h1 : e - s ≠ 4
  · rw [if_pos h1] at hok; simp at hok
  · rw [if_neg h1] at hok ⊢
    by_cases h2 : (CEIL : Int) < tripleSum v ss_cat s
    · rw [if_pos h2] at hok; simp at hok
    · rw [if_neg h2] at hok ⊢
      by_cases h3 : (classifier z ((tripleSum v ss_cat s) % 65536).toNat
          (resorbOption rd)).1 = false
      · rw [if_pos h3] at hok; simp at hok
      · rw [if_neg h3] at hok ⊢
        by_cases h4 : rd < resorbRelDelta v ss_cat s
            (classifier z ((tripleSum v ss_cat s) % 65536).toNat (resorbOption rd)).2.2
        · rw [if_pos h4] at hok; simp at hok
        · rw [if_neg h4] at hok ⊢
          by_cases h5 : z.cluster_size ≤ (classifier z ((tripleSum v ss_cat s) % 65536).toNat
              (resorbOption rd)).2.1
          · rw [if_pos h5] at hok ⊢
            by_cases h6 : NO ≤ z.outlier_size
            · rw [if_pos h6] at hok; simp at hok
            · rw [if_neg h6]; exact ⟨rfl, rfl, Nat.le_of_not_lt h4⟩
          · rw [if_neg h5]; exact ⟨rfl, rfl, Nat.le_of_not_lt h4⟩

/-- the five cells written by `resorbWrite` inside a window that fits. -/
theorem resorbWrite_getD (v ss_cat : List Nat) (s cv : Nat) (h : s + 4 < v.length) :
    (resorbWrite v ss_cat s cv).getD s 0 = ss_cat.getD 0 0 ∧
    (resorbWrite v ss_cat s cv).getD (s + 1) 0 = cv ∧
    (resorbWrite v ss_cat s cv).getD (s + 2) 0 = 0 ∧
    (resorbWrite v ss_cat s cv).getD (s + 3) 0 = 0 ∧
    (resorbWrite v ss_cat s cv).getD (s + 4) 0 = ss_cat.getD 4 0 := by
  unfold resorbWrite
  have l1 : ∀ (l : List Nat) (i x : Nat), (l.set i x).length = l.length :=
    fun l i x => List.length_set l i x
  refine ⟨?_, ?_, ?_, ?_, ?_⟩
  · rw [getDset_ne _ _ (by omega), getDset_ne _ _ (by omega), getDset_ne _ _ (by omega),
      getDset_ne _ _ (by omega), getDset_eq _ _ _ (by omega)]
  · rw [getDset_ne _ _ (by omega), getDset_ne _ _ (by omega), getDset_ne _ _ (by omega),
      getDset_eq _ _ _ (by simp only [l1]; omega)]
  · rw [getDset_ne _ _ (by omega), getDset_ne _ _ (by omega),
      getDset_eq _ _ _ (by simp only [l1]; omega)]
  · rw [getDset_ne _ _ (by omega), getDset_eq _ _ _ (by simp only [l1]; omega)]
  · rw [getDset_eq _ _ _ (by simp only [l1]; omega)]

/-- C2.  Whenever the resorber returns true on a window at `ss_start_ind`
that lies inside the duration array, the five-element window afterwards is
`(ss_cat[0], c, 0, 0, ss_cat[4])`, where `c` is the center of the category
the classifier assigned to the virtual triple, and the returned `rel_delta`
is at most the best-fit `rel_delta` passed in. -/
theorem c2_resorber_resorption (z : categories) (v ss_cat : List Nat) (s e rd : Nat)
    (hlen : s + 4 < v.length)
    (hok : (resorber z v ss_cat s e rd).ok = true) :
    (resorber z v ss_cat s e rd).v.getD s 0 = ss_cat.getD 0 0 ∧
    (resorber z v ss_cat s e rd).v.getD (s + 1) 0
        = (classifier z ((tripleSum v ss_cat s) % 65536).toNat (resorbOption rd)).2.2 ∧
    (resorber z v ss_cat s e rd).v.getD (s + 2) 0 = 0 ∧
    (resorber z v ss_cat s e rd).v.getD (s + 3) 0 = 0 ∧
    (resorber z v ss_cat s e rd).v.getD (s + 4) 0 = ss_cat.getD 4 0 ∧
    (resorber z v ss_cat s e rd).rel_delta ≤ rd := by
  obtain ⟨hv, _, hle⟩ := resorber_ok_shape z v ss_cat s e rd hok
  rw [hv]
  obtain ⟨w0, w1, w2, w3, w4⟩ := resorbWrite_getD v ss_cat s
    (classifier z ((tripleSum v ss_cat s) % 65536).toNat (resorbOption rd)).2.2 hlen
  exact ⟨w0, w1, w2, w3, w4, hle⟩

/-- category set and window for the C2 witness: triple `100+100+100` with
    clean borders classifies into the single cluster at center 300 with
    residual 0. -/
def zC2 : categories :=
  { clusters := [⟨5, 250, 300, 350⟩], outlier_ind := [], aggreg_size_1 := 0,
    aggreg_center := [], separator_barrier := 3500, inlier_count := 0 }

def vC2 : List Nat := [0, 400, 100, 100, 100, 400]

def catC2 : List Nat := [400, 300, 300, 300, 400]

theorem c2_resorber_resorption_witness :
    (resorber zC2 vC2 catC2 1 5 0).v.getD 1 0 = catC2.getD 0 0 ∧
    (resorber zC2 vC2 catC2 1 5 0).v.getD 2 0
        = (classifier zC2 ((tripleSum vC2 catC2 1) % 65536).toNat (resorbOption 0)).2.2 ∧
    (resorber zC2 vC2 catC2 1 5 0).v.getD 3 0 = 0 ∧
    (resorber zC2 vC2 catC2 1 5 0).v.getD 4 0 = 0 ∧
    (resorber zC2 vC2 catC2 1 5 0).v.getD 5 0 = catC2.getD 4 0 ∧
    (resorber zC2 vC2 catC2 1 5 0).rel_delta ≤ 0 :=
  c2_resorber_resorption zC2 vC2 catC2 1 5 0 (by decide) (by decide)

/-- C5 counterexample input: the resorber residual equals the incoming
    best-fit residual (both are 0), and the resorber accepts. -/
theorem c5_counterexample :
    ¬ (((resorber zC2 vC2 catC2 1 5 0).ok = true) ↔
        resorbRelDelta vC2 catC2 1
          (classifier zC2 ((tripleSum vC2 catC2 1) % 65536).toNat (resorbOption 0)).2.2
          < 0) := by
  decide

/-- C5 (amended).  For every 5-element window whose virtual triple sum is at
most `CEIL` and classifiable under the chosen option, and whose category
set has room in the outlier table, the resorber accepts exactly when its
residual `rel_delta` is less than **or equal to** the incoming best-fit
residual; when the residual is strictly larger it refuses, restores
`rel_delta` to the best-fit value and leaves `v` unchanged. -/
theorem c5_resorber_accept_iff (z : categories) (v ss_cat : List Nat) (s e rd : Nat)
    (hlen5 : e - s = 4)
    (hsum : ¬ (CEIL : Int) < tripleSum v ss_cat s)
    (hcls : (classifier z ((tripleSum v ss_cat s) % 65536).toNat (resorbOption rd)).1
        = true)
    (hroom : z.outlier_size < NO) :
    ((resorber z v ss_cat s e rd).ok = true ↔
      resorbRelDelta v ss_cat s
        (classifier z ((tripleSum v ss_cat s) % 65536).toNat (resorbOption rd)).2.2 ≤ rd) ∧
    (rd < resorbRelDelta v ss_cat s
        (classifier z ((tripleSum v ss_cat s) % 65536).toNat (resorbOption rd)).2.2 →
      (resorber z v ss_cat s e rd).rel_delta = rd ∧ (resorber z v ss_cat s e rd).v = v) := by
  unfold resorber
  rw [if_neg (by omega : ¬ e - s ≠ 4), if_neg hsum, if_neg (by rw [hcls]; simp)]
  by_cases h4 : rd < resorbRelDelta v ss_cat s
      (classifier z ((tripleSum v ss_cat s) % 65536).toNat (resorbOption rd)).2.2
  · rw [if_pos h4]
    constructor
    · simp only []
      constructor
      · intro h; exact absurd h (by simp)
      · intro h; omega
    · intro _; exact ⟨rfl, rfl⟩
  · rw [if_neg h4]
    constructor
    · by_cases h5 : z.cluster_size ≤ (classifier z ((tripleSum v ss_cat s) % 65536).toNat
          (resorbOption rd)).2.1
      · rw [if_pos h5, if_neg (by omega : ¬ NO ≤ z.outlier_size)]
        simp only [true_iff]
        omega
      · rw [if_neg h5]
        simp only [true_iff]
        omega
    · intro h; exact absurd h h4

/-- C5 witness: a window whose residual (17‰) exceeds the best-fit value
    (10‰); the resorber refuses and restores the best-fit residual. -/
def vC5 : List Nat := [0, 420, 150, 60, 90, 400]

theorem c5_resorber_accept_iff_witness :
    (¬ (resorber zC2 vC5 catC2 1 5 10).ok = true) ∧
    (resorber zC2 vC5 catC2 1 5 10).rel_delta = 10 ∧
    (resorber zC2 vC5 catC2 1 5 10).v = vC5 := by
  have h := c5_resorber_accept_iff zC2 vC5 catC2 1 5 10 (by decide) (by decide)
    (by decide) (by decide)
  refine ⟨?_, h.2 (by decide)⟩
  intro hok
  have := h.1.mp hok
  revert this
  decide

/-- C6 counterexample input: the triple classifies into an aggregation and
    the outlier table is full, so the resorber returns false with code 5 --
    but only after having rewritten the window. -/
def zC6 : categories :=
  { clusters := [⟨3, 100, 100, 116⟩],
    outlier_ind := [2, 4, 6, 8, 10, 12, 14, 16, 18, 20, 22, 24, 26, 28, 30, 32],
    aggreg_size_1 := 1, aggreg_center := [1000],
    separator_barrier := 65000, inlier_count := 0 }

def vC6 : List Nat := [0, 100, 300, 300, 400, 100]

def catC6 : List Nat := [100, 0, 0, 0, 100]

theorem c6_counterexample :
    (resorber zC6 vC6 catC6 1 5 0).ok = false ∧
    (resorber zC6 vC6 catC6 1 5 0).rc = 5 ∧
    (resorber zC6 vC6 catC6 1 5 0).v ≠ vC6 := by
  decide

/-- C6 (amended).  Whenever the resorber returns false with any code other
than 5 -- window length not 5, triple sum above `CEIL` (code 18), triple not
classifiable, residual not better than best-fit -- the duration array is
left unchanged; on the outlier-table overflow (code 5) the window has
already been overwritten. -/
theorem c6_resorber_refusal_frame (z : categories) (v ss_cat : List Nat) (s e rd : Nat)
    (hok : (resorber z v ss_cat s e rd).ok = false)
    (hrc : (resorber z v ss_cat s e rd).rc ≠ 5) :
    (resorber z v ss_cat s e rd).v = v := by
  unfold resorber at hok hrc ⊢
  by_cases h1 : e - s ≠ 4
  · rw [if_pos h1]
  · rw [if_neg h1] at hok hrc ⊢
    by_cases h2 : (CEIL : Int) < tripleSum v ss_cat s
    · rw [if_pos h2]
    · rw [if_neg h2] at hok hrc ⊢
      by_cases h3 : (classifier z ((tripleSum v ss_cat s) % 65536).toNat
          (resorbOption rd)).1 = false
      · rw [if_pos h3]
      · rw [if_neg h3] at hok hrc ⊢
        by_cases h4 : rd < resorbRelDelta v ss_cat s
            (classifier z ((tripleSum v ss_cat s) % 65536).toNat (resorbOption rd)).2.2
        · rw [if_pos h4]
        · rw [if_neg h4] at hok hrc ⊢
          by_cases h5 : z.cluster_size ≤ (classifier z ((tripleSum v ss_cat s) % 65536).toNat
              (resorbOption rd)).2.1
          · rw [if_pos h5] at hok hrc ⊢
            by_cases h6 : NO ≤ z.outlier_size
            · rw [if_pos h6] at hrc; simp at hrc
            · rw [if_neg h6] at hok; simp at hok
          · rw [if_neg h5] at hok; simp at hok

/-- C6 witness: an unclassifiable triple is refused with the array intact. -/
def vC6b : List Nat := [0, 400, 2000, 2000, 2000, 400]

theorem c6_resorber_refusal_frame_witness :
    (resorber zC2 vC6b catC2 1 5 0).v = vC6b :=
  c6_resorber_refusal_frame zC2 vC6b catC2 1 5 0 (by decide) (by decide)

/-! ### C7: the separator barrier -/

theorem foldIf_eq_foldMax (sep : Nat) :
    ∀ (l : List Nat) (acc : Nat),
      l.foldl (fun a x => if x < sep ∧ x > a then x else a) acc
        = (l.filter (fun x => decide (x < sep))).foldl max acc := by
  intro l
  induction l with
  | nil => intro acc; rfl
  | cons x t ih =>
    intro acc
    simp only [List.foldl_cons, List.filter_cons]
    by_cases hx : x < sep
    · have hmax : (if x < sep ∧ x > acc then x else acc) = max acc x := by
        by_cases ha : x > acc
        · rw [if_pos ⟨hx, ha⟩]; omega
        · rw [if_neg (by tauto)]; omega
      rw [hmax, if_pos (show decide (x < sep) = true by simpa using hx),
        List.foldl_cons, ih]
    · have hno : (if x < sep ∧ x > acc then x else acc) = acc := if_neg (by tauto)
      rw [hno, if_neg (show ¬ decide (x < sep) = true by simpa using hx), ih]

theorem barrierNew_eq_specStep (v oind : List Nat) (b : Nat) :
    barrierNew v oind (sepOf b) = specStep v oind b := by
  unfold barrierNew specStep
  rw [← List.foldl_map (fun i => v.getD i 0)
    (fun a x => if x < sepOf b ∧ x > a then x else a) oind 0]
  exact foldIf_eq_foldMax (sepOf b) (oind.map (fun i => v.getD i 0)) 0

theorem foldMax_le (m : Nat) :
    ∀ (l : List Nat) (acc : Nat), (∀ x ∈ l, x ≤ m) → acc ≤ m →
      l.foldl max acc ≤ m := by
  intro l
  induction l with
  | nil => intro acc _ h; exact h
  | cons x t ih =>
    intro acc hall hacc
    refine ih (max acc x) (fun y hy => hall y (List.mem_cons_of_mem x hy)) ?_
    exact max_le hacc (hall x (List.mem_cons_self x t))

theorem sepOf_le (b : Nat) : sepOf b ≤ CEIL := by
  unfold sepOf
  split
  · next h =>
    have : CEIL / 10 = 6500 := by decide
    rw [this] at h
    have : CEIL = 65000 := rfl
    omega
  · exact le_refl _

theorem specStep_le (v oind : List Nat) (b : Nat) : specStep v oind b ≤ 64999 := by
  unfold specStep
  apply foldMax_le
  · intro x hx
    have := List.of_mem_filter hx
    have hlt : x < sepOf b := by simpa using this
    have := sepOf_le b
    have : sepOf b ≤ 65000 := this
    omega
  · omega

theorem barrierLoop_from (v oind : List Nat) :
    ∀ (fuel b : Nat), 65002 ≤ b + fuel →
      ∃ b', Relation.ReflTransGen (barRaise v oind) b b' ∧
        specStep v oind b' ≤ b' ∧
        barrierLoop v oind b (specStep v oind b) (sepOf b) fuel = sepOf b' := by
  intro fuel
  induction fuel with
  | zero =>
    intro b hb
    refine ⟨b, Relation.ReflTransGen.refl, ?_, rfl⟩
    have := specStep_le v oind b
    omega
  | succ fuel ih =>
    intro b hb
    by_cases h : specStep v oind b > b
    · have hstep :
          barrierLoop v oind b (specStep v oind b) (sepOf b) (fuel + 1)
            = barrierLoop v oind (specStep v oind b)
                (specStep v oind (specStep v oind b)) (sepOf (specStep v oind b)) fuel := by
        rw [barrierLoop, if_pos h, barrierNew_eq_specStep]
      obtain ⟨b', hreach, hfix, heq⟩ := ih (specStep v oind b) (by omega)
      exact ⟨b', Relation.ReflTransGen.head ⟨rfl, h⟩ hreach, hfix, hstep ▸ heq⟩
    · refine ⟨b, Relation.ReflTransGen.refl, by omega, ?_⟩
      rw [barrierLoop, if_neg h]

/-- C7.  The separator barrier emitted by post-clustering is determined by
the fixed point of repeatedly raising the barrier to the highest outlier
value below the (saturated) tenfold barrier, starting from the last cluster
ceil: the result is `10 * b` under the exact comparison `b < CEIL / 10` and
exactly `CEIL` otherwise, hence always at most `CEIL`. -/
theorem c7_separator_barrier (v : List Nat) (z : categories) :
    ∃ b, Relation.ReflTransGen (barRaise v z.outlier_ind)
        (z.cluster_ceil (z.cluster_size - 1)) b ∧
      specStep v z.outlier_ind b ≤ b ∧
      sepBarrier v z.outlier_ind (z.cluster_ceil (z.cluster_size - 1))
        = (if b < CEIL / 10 then 10 * b else CEIL) ∧
      sepBarrier v z.outlier_ind (z.cluster_ceil (z.cluster_size - 1)) ≤ CEIL := by
  set start := z.cluster_ceil (z.cluster_size - 1) with hstart
  unfold sepBarrier
  by_cases h0 : start > 0
  · have hfirst :
        barrierLoop v z.outlier_ind 0 start 0 65002
          = barrierLoop v z.outlier_ind start (specStep v z.outlier_ind start)
              (sepOf start) 65001 := by
      rw [show (65002 : Nat) = 65001 + 1 from rfl, barrierLoop, if_pos h0,
        barrierNew_eq_specStep]
    obtain ⟨b', hreach, hfix, heq⟩ := barrierLoop_from v z.outlier_ind 65001 start (by omega)
    refine ⟨b', hreach, hfix, ?_, ?_⟩
    · rw [hfirst, heq]; rfl
    · rw [hfirst, heq]; exact sepOf_le b'
  · have h0' : start = 0 := by omega
    have hloop : barrierLoop v z.outlier_ind 0 start 0 65002 = 0 := by
      rw [show (65002 : Nat) = 65001 + 1 from rfl, barrierLoop, if_neg h0]
    refine ⟨0, by rw [h0'], ?_, ?_, ?_⟩
    · have hsep0 : sepOf 0 = 0 := by decide
      unfold specStep
      rw [hsep0]
      simp
    · rw [hloop]; decide
    · rw [hloop]; exact Nat.zero_le _

/-! ### C10: merged-outlier scan buffer under-read -/

/-- C10 input: a single merged outlier (HIGH index 9, value 120 near center
    100 at 20%), classifiable under `C_OPT_2` and with a correction that
    lowers the residual, so the scan takes the correctable branch at merged
    position 0. -/
def zH10 : categories :=
  { clusters := [⟨3, 90, 100, 112⟩], outlier_ind := [9], aggreg_size_1 := 0,
    aggreg_center := [], separator_barrier := 10000, inlier_count := 0 }

def zL10 : categories :=
  { clusters := [⟨3, 980, 1000, 1020⟩], outlier_ind := [], aggreg_size_1 := 0,
    aggreg_center := [], separator_barrier := 12000, inlier_count := 0 }

def v10 : List Nat :=
  [0, 100, 1000, 100, 1000, 100, 1000, 100, 1000, 120, 980, 100, 1000, 100, 1000,
   100, 1000, 100, 1000, 100, 1000]

/-- C10.  The corrector runs to completion (code 0) on this input, and its
merged-outlier scan evaluates the adjacent-outlier check that reads
`m_outlier_ind[m_ind - 1]` while `m_ind = 0` (the `oob` flag), i.e. the read
lies outside the merged-outlier buffer. -/
theorem c10_oob_read_at_zero :
    (corrector zH10 zL10 v10 20 0).oob = true ∧
    (corrector zH10 zL10 v10 20 0).rc = 0 := by
  decide

/-! ### C9: subsequence length handling -/

/-- window length `ss_stop_ind - ss_start_ind + 1`. -/
def winLen (w : Nat × Nat) : Nat := w.2 - w.1 + 1

def goodWin (w : Nat × Nat) : Prop := 4 ≤ winLen w ∧ winLen w ≤ 5

theorem aggLoop_rc_ne2 :
    ∀ (fuel : Nat) (v oind : List Nat) (ol m : Nat) (z : categories) (o : Nat),
      (aggLoop v oind ol m z o fuel).2 ≠ 2 := by
  intro fuel
  induction fuel with
  | zero => intro v oind ol m z o; simp [aggLoop]
  | succ n ih =>
    intro v oind ol m z o
    simp only [aggLoop]
    split_ifs <;> first | exact ih _ _ _ _ _ _ | simp

theorem aggregator_rc_ne2 (z : categories) (v : List Nat) (m : Nat) :
    (aggregator z v m).2 ≠ 2 := by
  simp only [aggregator]
  split_ifs
  · simp
  · apply aggLoop_rc_ne2

theorem resorber_rc_ne2 (z : categories) (v ss_cat : List Nat) (s e rd : Nat) :
    (resorber z v ss_cat s e rd).rc ≠ 2 := by
  unfold resorber
  by_cases h1 : e - s ≠ 4
  · rw [if_pos h1]; simp
  · rw [if_neg h1]
    by_cases h2 : (CEIL : Int) < tripleSum v ss_cat s
    · rw [if_pos h2]; simp
    · rw [if_neg h2]
      by_cases h3 : (classifier z ((tripleSum v ss_cat s) % 65536).toNat
          (resorbOption rd)).1 = false
      · rw [if_pos h3]; simp
      · rw [if_neg h3]
        by_cases h4 : rd < resorbRelDelta v ss_cat s
            (classifier z ((tripleSum v ss_cat s) % 65536).toNat (resorbOption rd)).2.2
        · rw [if_pos h4]; simp
        · rw [if_neg h4]
          by_cases h5 : z.cluster_size ≤ (classifier z ((tripleSum v ss_cat s) % 65536).toNat
              (resorbOption rd)).2.1
          · rw [if_pos h5]
            by_cases h6 : NO ≤ z.outlier_size
            · rw [if_pos h6]; simp
            · rw [if_neg h6]; simp
          · rw [if_neg h5]; simp

theorem ssTop_rc_ne2 (v : List Nat) :
    ∀ (l : List Nat) (zH zL : categories) (rc : Nat), rc ≠ 2 →
      (ssTop v l (zH, zL, rc)).2.2 ≠ 2 := by
  intro l
  induction l with
  | nil => intro zH zL rc h; exact h
  | cons i rest ih =>
    intro zH zL rc h
    simp only [ssTop]
    split_ifs
    · exact h
    · simp
    · exact ih _ _ _ (aggregator_rc_ne2
        { getZ zH zL i with outlier_ind := (getZ zH zL i).outlier_ind ++ [i] } v 0)
    · exact ih zH zL rc h

theorem ssPass_rc2 (v_start v_stop : Nat) :
    ∀ (fuel : Nat) (zH zL : categories) (v : List Nat) (ext : Nat) (oob : Bool)
      (ws : List (Nat × Nat)) (rc : Nat), rc ≠ 2 → (∀ w ∈ ws, goodWin w) →
      ((ssPass v_start v_stop zH zL v ext oob ws rc fuel).rc = 2 ↔
        ∃ w, (ssPass v_start v_stop zH zL v ext oob ws rc fuel).windows.getLast? = some w
          ∧ ¬ goodWin w) := by
  intro fuel
  induction fuel with
  | zero =>
    intro zH zL v ext oob ws rc hrc hws
    simp only [ssPass]
    constructor
    · intro h; simp at h
    · rintro ⟨w, hlast, hbad⟩
      exact absurd (hws w (List.mem_of_mem_getLast? hlast)) hbad
  | succ n ih =>
    intro zH zL v ext oob ws rc hrc hws
    simp only [ssPass]
    cases hext : extractor v v_stop ext with
    | none =>
      simp only []
      constructor
      · intro h; exact absurd h hrc
      · rintro ⟨w, hlast, hbad⟩
        exact absurd (hws w (List.mem_of_mem_getLast? hlast)) hbad
    | some t =>
      obtain ⟨s, e, ext'⟩ := t
      simp only []
      by_cases hlen : e - s + 1 < 4 ∨ e - s + 1 > 5
      · rw [if_pos hlen]
        simp only []
        constructor
        · intro _
          refine ⟨(s, e), by simp, ?_⟩
          intro hg
          obtain ⟨h4, h5⟩ := hg
          simp only [goodWin, winLen] at h4 h5
          omega
        · intro _; trivial
      · rw [if_neg hlen]
        have hgood : goodWin (s, e) := by
          simp only [goodWin, winLen]; omega
        have hws' : ∀ w ∈ ws ++ [(s, e)], goodWin w := by
          intro w hw
          rcases List.mem_append.mp hw with h | h
          · exact hws w h
          · simp at h; subst h; exact hgood
        by_cases htop : (ssTop v ((List.range (e - s + 1)).map (fun j => s + j))
            (zH, zL, rc)).2.2 = 5
        · rw [if_pos htop]
          constructor
          · intro h; simp at h
          · rintro ⟨w, hlast, hbad⟩
            simp only [List.getLast?_concat] at hlast
            cases hlast
            exact absurd hgood hbad
        · rw [if_neg htop]
          by_cases hflag : (ssBestFit (ssTop v ((List.range (e - s + 1)).map
              (fun j => s + j)) (zH, zL, rc)).1 (ssTop v ((List.range (e - s + 1)).map
              (fun j => s + j)) (zH, zL, rc)).2.1 v
              ((List.range (e - s + 1)).map (fun j => s + j))).1 = true
          · rw [if_pos hflag]
            exact ih _ _ _ _ _ _ _ (ssTop_rc_ne2 v _ zH zL rc hrc) hws'
          · rw [if_neg hflag]
            by_cases hok : (resorber (getZ (ssTop v ((List.range (e - s + 1)).map
                (fun j => s + j)) (zH, zL, rc)).1 (ssTop v ((List.range (e - s + 1)).map
                (fun j => s + j)) (zH, zL, rc)).2.1 (s + 1)) v
                (ssBestFit (ssTop v ((List.range (e - s + 1)).map (fun j => s + j))
                  (zH, zL, rc)).1 (ssTop v ((List.range (e - s + 1)).map (fun j => s + j))
                  (zH, zL, rc)).2.1 v ((List.range (e - s + 1)).map (fun j => s + j))).2.1
                s e
                (ssBestFit (ssTop v ((List.range (e - s + 1)).map (fun j => s + j))
                  (zH, zL, rc)).1 (ssTop v ((List.range (e - s + 1)).map (fun j => s + j))
                  (zH, zL, rc)).2.1 v ((List.range (e - s + 1)).map
                  (fun j => s + j))).2.2).ok = true
            · rw [if_pos hok]
              exact ih _ _ _ _ _ _ _ (resorber_rc_ne2 _ _ _ _ _ _) hws'
            · rw [if_neg hok]
              by_cases hrc0 : (resorber (getZ (ssTop v ((List.range (e - s + 1)).map
                  (fun j => s + j)) (zH, zL, rc)).1 (ssTop v ((List.range (e - s + 1)).map
                  (fun j => s + j)) (zH, zL, rc)).2.1 (s + 1)) v
                  (ssBestFit (ssTop v ((List.range (e - s + 1)).map (fun j => s + j))
                    (zH, zL, rc)).1 (ssTop v ((List.range (e - s + 1)).map (fun j => s + j))
                    (zH, zL, rc)).2.1 v ((List.range (e - s + 1)).map (fun j => s + j))).2.1
                  s e
                  (ssBestFit (ssTop v ((List.range (e - s + 1)).map (fun j => s + j))
                    (zH, zL, rc)).1 (ssTop v ((List.range (e - s + 1)).map (fun j => s + j))
                    (zH, zL, rc)).2.1 v ((List.range (e - s + 1)).map
                    (fun j => s + j))).2.2).rc ≠ 0
              · rw [if_pos hrc0]
                constructor
                · intro h
                  exact absurd h (resorber_rc_ne2 _ _ _ _ _ _)
                · rintro ⟨w, hlast, hbad⟩
                  simp only [List.getLast?_concat] at hlast
                  cases hlast
                  exact absurd hgood hbad
              · rw [if_neg hrc0]
                exact ih _ _ _ _ _ _ _ (resorber_rc_ne2 _ _ _ _ _ _) hws'

theorem outlierCorrection_shape (zH zL : categories) (v : List Nat) (a b : Nat) :
    (outlierCorrection zH zL v a b).1.rc ≠ 2 ∧
    (outlierCorrection zH zL v a b).1.windows = [] := by
  unfold outlierCorrection
  by_cases h1 : zH.outlier_size > 0 ∨ zL.outlier_size > 0
  · rw [if_pos h1]
    by_cases h2 : zH.outlier_size + zL.outlier_size > NM
    · rw [if_pos h2]
      exact ⟨fun h => absurd h (by decide : ¬ (16 : Nat) = 2), rfl⟩
    · rw [if_neg h2]
      by_cases h3 : (mergeL zH.outlier_ind zL.outlier_ind).length = 0
      · rw [if_pos h3]
        exact ⟨fun h => absurd h (by decide : ¬ (0 : Nat) = 2), rfl⟩
      · rw [if_neg h3]
        simp only []
        split
        · next h4 => exact ⟨fun h => aggregator_rc_ne2 _ _ 0 h, rfl⟩
        · next h4 => exact ⟨fun h => aggregator_rc_ne2 _ _ 0 h, rfl⟩
  · rw [if_neg h1]
    exact ⟨fun h => absurd h (by decide : ¬ (0 : Nat) = 2), rfl⟩

/-- C9.  The corrector reports code 2 (subsequence length error) exactly
when the untrusted-subsequence walk extracted a window whose length is
neither 4 nor 5 (that window is then the last one extracted); and the
resorber never touches a 4-element window: on `ss_stop_ind - ss_start_ind
= 3` it returns false with `z`, `v` and `rel_delta` unchanged and code 0,
so such a window can only receive the best-fit overwrite. -/
theorem c9_subsequence_length (zH zL : categories) (v : List Nat) (len u : Nat) :
    ((corrector zH zL v len u).rc = 2 ↔
      ∃ w, (corrector zH zL v len u).windows.getLast? = some w ∧ ¬ goodWin w) ∧
    (∀ (z : categories) (v2 ss_cat : List Nat) (s rd : Nat),
      resorber z v2 ss_cat s (s + 3) rd = ⟨false, z, v2, rd, 0⟩) := by
  constructor
  · unfold corrector
    by_cases h0 : zH.cluster_size = 0 ∨ zH.cluster_size = 0
    · rw [if_pos h0]
      constructor
      · intro h; exact absurd h (by decide : ¬ (7 : Nat) = 2)
      · rintro ⟨w, hlast, _⟩
        exact Option.noConfusion (hlast : (none : Option (Nat × Nat)) = some w)
    · rw [if_neg h0]
      simp only []
      obtain ⟨hrc, hwin⟩ := outlierCorrection_shape zH zL v 1 len
      by_cases h1 : (outlierCorrection zH zL v 1 len).2 = true
      · rw [if_pos h1]
        constructor
        · intro h; exact absurd h hrc
        · rintro ⟨w, hlast, _⟩
          rw [hwin] at hlast
          simp at hlast
      · rw [if_neg h1]
        by_cases h2 : (outlierCorrection zH zL v 1 len).1.rc ≠ 0
        · rw [if_pos h2]
          constructor
          · intro h; exact absurd h hrc
          · rintro ⟨w, hlast, _⟩
            rw [hwin] at hlast
            simp at hlast
        · rw [if_neg h2]
          by_cases h3 : u > 0
          · rw [if_pos h3]
            exact ssPass_rc2 1 len (len + 2) _ _ _ _ _ [] _ hrc (by simp)
          · rw [if_neg h3]
            constructor
            · intro h; exact absurd h hrc
            · rintro ⟨w, hlast, _⟩
              rw [hwin] at hlast
              simp at hlast
  · intro z v2 ss_cat s rd
    unfold resorber
    rw [if_pos (by omega : ¬ (s + 3) - s = 4)]

/-! ### C8: a raised overlap flag suppresses the corrector -/

/-- interleave HIGH durations (odd positions) and LOW durations (even
    positions) after the dummy cell 0. -/
def mkV (highs lows : List Nat) : List Nat :=
  0 :: (List.range (highs.length + lows.length)).map
    (fun j => if j % 2 = 0 then highs.getD (j / 2) 0 else lows.getD (j / 2) 0)

/-- HIGH durations of an overlap trace: two dense bin runs bridged by the
    sparsely hit bins at 100/120/140, which trip the overlap heuristic. -/
def ovH : List Nat :=
  [80, 80, 80, 80] ++
  (List.replicate 5 56 ++ List.replicate 5 70 ++ List.replicate 5 90 ++
   [100, 120, 140] ++ List.replicate 5 150 ++ List.replicate 5 170) ++
  [80, 80, 80, 80]

def ovL : List Nat := List.replicate 36 1200

def ovV : List Nat := mkV ovH ovL ++ [80, 65000]

/-- C8.  When both clusterer runs return code 0 and the (threaded) overlap
flag ends up raised, the categorizer skips the corrector, returns the
duration array unchanged with code 0, and still emits both category sets
and the printed sequence. -/
theorem c8_overlap_frame (v : List Nat) (len u : Nat)
    (hH : (clusterer v (2 - HIGH) (len - HIGH) false).2.2 = 0)
    (hL : (clusterer v (2 - LOW) (len - LOW)
            (clusterer v (2 - HIGH) (len - HIGH) false).2.1).2.2 = 0)
    (hov : (clusterer v (2 - LOW) (len - LOW)
            (clusterer v (2 - HIGH) (len - HIGH) false).2.1).2.1 = true) :
    (categorizer v len u).rc = 0 ∧
    (categorizer v len u).v = v ∧
    (categorizer v len u).correctorInvoked = false ∧
    (categorizer v len u).zH = (clusterer v (2 - HIGH) (len - HIGH) false).1 ∧
    (categorizer v len u).zL = (clusterer v (2 - LOW) (len - LOW)
        (clusterer v (2 - HIGH) (len - HIGH) false).2.1).1 ∧
    (categorizer v len u).printed = seqPrinter
        (clusterer v (2 - HIGH) (len - HIGH) false).1
        (clusterer v (2 - LOW) (len - LOW)
          (clusterer v (2 - HIGH) (len - HIGH) false).2.1).1 v len := by
  unfold categorizer
  rw [if_neg (by simp [hH]), if_neg (by simp [hL]), if_neg (by simp [hov])]
  exact ⟨rfl, rfl, rfl, rfl, rfl, rfl⟩

/-- C8 witness: on the overlap trace both clusterer runs return code 0, the
flag is raised, and the categorizer leaves the array unchanged with the
corrector skipped. -/
theorem c8_overlap_frame_witness :
    (categorizer ovV 72 0).rc = 0 ∧ (categorizer ovV 72 0).v = ovV ∧
    (categorizer ovV 72 0).correctorInvoked = false :=
  let h := c8_overlap_frame ovV 72 0 (by decide) (by decide) (by decide)
  ⟨h.1, h.2.1, h.2.2.1⟩

/-! ### C4: classifier on values outside every cluster range

Spec-side definitions: the claim's nearest category is the least-index
argmin over cluster centers followed by aggregation centers (aggregation
`k` reported as combined index `cluster_size + k`), a candidate being
adopted only at strictly smaller distance. -/

/-- absolute distance between a value and a center. -/
def dist (a b : Nat) : Nat := if a > b then a - b else b - a

/-- fold of a candidate list `(index, center)` adopting a candidate only at
    strictly smaller distance (the claim's nearest-category scan). -/
def nFold (v_val : Nat) : List (Nat × Nat) → Nat × Nat × Nat → Nat × Nat × Nat
  | [], acc => acc
  | p :: rest, acc =>
    if dist v_val p.2 < acc.2.2 then nFold v_val rest (p.1, p.2, dist v_val p.2)
    else nFold v_val rest acc

/-- cluster candidates `(index, center)` starting at index `i0`. -/
def cluCands : Nat → List cluster → List (Nat × Nat)
  | _, [] => []
  | i0, c :: rest => (i0, c.center) :: cluCands (i0 + 1) rest

/-- aggregation candidates: aggregation `a0` is reported as `csize + a0`. -/
def aggCands (csize : Nat) : Nat → List Nat → List (Nat × Nat)
  | _, [] => []
  | a0, c :: rest => (csize + a0, c) :: aggCands csize (a0 + 1) rest

/-- all category candidates of the claim: clusters, then aggregations. -/
def catCands (z : categories) : List (Nat × Nat) :=
  cluCands 0 z.clusters ++ aggCands z.cluster_size 0 z.aggreg_center

/-- the claim's nearest category, starting from the first cluster. -/
def specNearestCat (z : categories) (v_val : Nat) : Nat × Nat × Nat :=
  nFold v_val (catCands z) (0, z.cluster_center 0, dist v_val (z.cluster_center 0))

theorem sub16_of_le (a b : Nat) (ha : a < 65536) (hb : b ≤ a) : sub16 a b = a - b := by
  unfold sub16
  rw [Nat.mod_eq_of_lt ha, Nat.mod_eq_of_lt (lt_of_le_of_lt hb ha),
    show a + 65536 - b = (a - b) + 65536 from by omega, Nat.add_mod_right]
  exact Nat.mod_eq_of_lt (by omega)

theorem nFold_append (v : Nat) (l1 l2 : List (Nat × Nat)) (acc : Nat × Nat × Nat) :
    nFold v (l1 ++ l2) acc = nFold v l2 (nFold v l1 acc) := by
  induction l1 generalizing acc with
  | nil => rfl
  | cons p rest ih =>
    simp only [List.cons_append, nFold]
    by_cases h : dist v p.2 < acc.2.2
    · rw [if_pos h, if_pos h]; exact ih _
    · rw [if_neg h, if_neg h]; exact ih _

theorem nFold_stay (v : Nat) (l : List (Nat × Nat)) (acc : Nat × Nat × Nat)
    (h : ∀ p ∈ l, ¬ dist v p.2 < acc.2.2) : nFold v l acc = acc := by
  induction l with
  | nil => rfl
  | cons p rest ih =>
    simp only [nFold]
    rw [if_neg (h p (List.mem_cons_self p rest))]
    exact ih (fun q hq => h q (List.mem_cons_of_mem p hq))

theorem nFold_delta_le (v : Nat) (l : List (Nat × Nat)) (acc : Nat × Nat × Nat) :
    (nFold v l acc).2.2 ≤ acc.2.2 := by
  induction l generalizing acc with
  | nil => exact le_refl _
  | cons p rest ih =>
    simp only [nFold]
    by_cases h : dist v p.2 < acc.2.2
    · rw [if_pos h]; exact le_trans (ih _) (le_of_lt h)
    · rw [if_neg h]; exact ih _

theorem nFold_cases (v : Nat) (l : List (Nat × Nat)) (acc : Nat × Nat × Nat) :
    nFold v l acc = acc ∨ ∃ q ∈ l, nFold v l acc = (q.1, q.2, dist v q.2) := by
  induction l generalizing acc with
  | nil => exact Or.inl rfl
  | cons p rest ih =>
    simp only [nFold]
    by_cases h : dist v p.2 < acc.2.2
    · rw [if_pos h]
      rcases ih (p.1, p.2, dist v p.2) with h2 | ⟨q, hq, h2⟩
      · exact Or.inr ⟨p, List.mem_cons_self p rest, h2⟩
      · exact Or.inr ⟨q, List.mem_cons_of_mem p hq, h2⟩
    · rw [if_neg h]
      rcases ih acc with h2 | ⟨q, hq, h2⟩
      · exact Or.inl h2
      · exact Or.inr ⟨q, List.mem_cons_of_mem p hq, h2⟩

theorem nFold_champion (v : Nat) (l1 l2 : List (Nat × Nat)) (p : Nat × Nat)
    (acc : Nat × Nat × Nat)
    (hacc : dist v p.2 < acc.2.2)
    (h1 : ∀ q ∈ l1, dist v p.2 < dist v q.2) :
    nFold v (l1 ++ p :: l2) acc = nFold v l2 (p.1, p.2, dist v p.2) := by
  rw [nFold_append]
  have hlt : dist v p.2 < (nFold v l1 acc).2.2 := by
    rcases nFold_cases v l1 acc with h | ⟨q, hq, h⟩
    · rw [h]; exact hacc
    · rw [h]; exact h1 q hq
  simp only [nFold]
  rw [if_pos hlt]

theorem aggregScan_eq_nFold (v csize : Nat) (l : List Nat) :
    ∀ (a0 ci cv d : Nat),
      aggregScan v csize l a0 (ci, cv, d) = nFold v (aggCands csize a0 l) (ci, cv, d) := by
  induction l with
  | nil => intro a0 ci cv d; rfl
  | cons c rest ih =>
    intro a0 ci cv d
    simp only [aggregScan, aggCands, nFold, dist]
    by_cases h : (if v > c then v - c else c - v) < d
    · rw [if_pos h, if_pos h]
      exact ih (a0 + 1) (csize + a0) c (if v > c then v - c else c - v)
    · rw [if_neg h, if_neg h]
      exact ih (a0 + 1) ci cv d

theorem getD_take4 {α : Type} [Inhabited α] (cs : List α) : ∀ (b j : Nat), j < b →
    (cs.take b).getD j default = cs.getD j default := by
  induction cs with
  | nil => intro b j h; cases b <;> rfl
  | cons c rest ih =>
    intro b j hj
    cases b with
    | zero => exact absurd hj (Nat.not_lt_zero j)
    | succ b2 =>
      cases j with
      | zero => rfl
      | succ j2 =>
        simp only [List.take_succ_cons, List.getD_cons_succ]
        exact ih b2 j2 (Nat.lt_of_succ_lt_succ hj)

theorem getD_drop4 {α : Type} [Inhabited α] (cs : List α) : ∀ (b j : Nat),
    (cs.drop b).getD j default = cs.getD (b + j) default := by
  induction cs with
  | nil => intro b j; cases b <;> rfl
  | cons c rest ih =>
    intro b j
    cases b with
    | zero => rw [Nat.zero_add, List.drop_zero]
    | succ b2 =>
      rw [show b2 + 1 + j = (b2 + j) + 1 from by omega]
      simp only [List.drop_succ_cons, List.getD_cons_succ]
      exact ih b2 j

theorem drop_cons4 {α : Type} [Inhabited α] (cs : List α) : ∀ (b : Nat), b < cs.length →
    cs.drop b = cs.getD b default :: cs.drop (b + 1) := by
  induction cs with
  | nil => intro b hb; simp at hb
  | cons c rest ih =>
    intro b hb
    cases b with
    | zero => rfl
    | succ b2 =>
      simp only [List.drop_succ_cons, List.getD_cons_succ]
      exact ih b2 (by simpa using hb)

theorem cluCands_split : ∀ (cs : List cluster) (k i0 : Nat), k ≤ cs.length →
    cluCands i0 cs = cluCands i0 (cs.take k) ++ cluCands (i0 + k) (cs.drop k) := by
  intro cs
  induction cs with
  | nil =>
    intro k i0 hk
    have hk0 : k = 0 := Nat.le_zero.mp hk
    subst hk0
    rfl
  | cons c rest ih =>
    intro k i0 hk
    cases k with
    | zero => simp [cluCands]
    | succ j =>
      have hk2 : j ≤ rest.length := by simp at hk; omega
      simp only [List.take_succ_cons, List.drop_succ_cons, cluCands, List.cons_append]
      rw [show i0 + (j + 1) = i0 + 1 + j from by omega]
      exact congrArg (List.cons _) (ih j (i0 + 1) hk2)

theorem mem_cluCands : ∀ (cs : List cluster) (i0 : Nat) (p : Nat × Nat),
    p ∈ cluCands i0 cs → ∃ j, j < cs.length ∧ p = (i0 + j, (cs.getD j default).center) := by
  intro cs
  induction cs with
  | nil => intro i0 p hp; simp [cluCands] at hp
  | cons c rest ih =>
    intro i0 p hp
    simp only [cluCands, List.mem_cons] at hp
    rcases hp with rfl | hp
    · exact ⟨0, Nat.succ_pos _, by simp⟩
    · obtain ⟨j, hj, rfl⟩ := ih (i0 + 1) p hp
      refine ⟨j + 1, Nat.succ_lt_succ hj, ?_⟩
      rw [show i0 + (j + 1) = i0 + 1 + j from by omega]
      simp

theorem ceilScan_none (v : Nat) : ∀ (cs : List cluster), ceilScan cs v = none →
    ∀ j, j < cs.length → ¬ v < (cs.getD j default).ceil := by
  intro cs
  induction cs with
  | nil => intro h j hj; simp at hj
  | cons c rest ih =>
    intro h j hj
    simp only [ceilScan] at h
    by_cases hv : v < c.ceil
    · rw [if_pos hv] at h; exact absurd h (by simp)
    · rw [if_neg hv] at h
      have h2 : ceilScan rest v = none := by simpa using h
      cases j with
      | zero => exact hv
      | succ j2 => simpa using ih h2 j2 (Nat.lt_of_succ_lt_succ hj)

theorem ceilScan_some_spec (v : Nat) : ∀ (cs : List cluster) (k : Nat), ceilScan cs v = some k →
    k < cs.length ∧ v < (cs.getD k default).ceil ∧
      ∀ j, j < k → ¬ v < (cs.getD j default).ceil := by
  intro cs
  induction cs with
  | nil => intro k h; exact absurd h (by simp [ceilScan])
  | cons c rest ih =>
    intro k h
    simp only [ceilScan] at h
    by_cases hv : v < c.ceil
    · rw [if_pos hv] at h
      have hk : 0 = k := by simpa using h
      subst hk
      exact ⟨Nat.succ_pos _, hv, fun j hj => absurd hj (Nat.not_lt_zero j)⟩
    · rw [if_neg hv] at h
      obtain ⟨k2, hk2, hke⟩ := Option.map_eq_some'.mp h
      subst hke
      obtain ⟨h1, h2, h3⟩ := ih k2 hk2
      refine ⟨Nat.succ_lt_succ h1, by simpa using h2, ?_⟩
      intro j hj
      cases j with
      | zero => exact hv
      | succ j2 => simpa using h3 j2 (Nat.lt_of_succ_lt_succ hj)

theorem center_lt_center (z : categories)
    (hctr : ∀ i, i < z.cluster_size →
      z.cluster_floor i ≤ z.cluster_center i ∧ z.cluster_center i < z.cluster_ceil i)
    (hsort : ∀ j, j < z.cluster_size → ∀ i, i < j → z.cluster_ceil i ≤ z.cluster_floor j)
    {i j : Nat} (hij : i < j) (hj : j < z.cluster_size) :
    z.cluster_center i < z.cluster_center j := by
  have h1 := hctr i (lt_trans hij hj)
  have h2 := hctr j hj
  have h3 := hsort j hj i hij
  omega

theorem nFold_cluster_argmin (z : categories) (v : Nat) (b : Nat)
    (hb : b < z.cluster_size)
    (hbest : ∀ j, j < z.cluster_size →
      ¬ dist v (z.cluster_center j) < dist v (z.cluster_center b))
    (hstrict : ∀ j, j < b → dist v (z.cluster_center b) < dist v (z.cluster_center j)) :
    nFold v (cluCands 0 z.clusters) (0, z.cluster_center 0, dist v (z.cluster_center 0))
      = (b, z.cluster_center b, dist v (z.cluster_center b)) := by
  rcases Nat.eq_zero_or_pos b with rfl | hbpos
  · exact nFold_stay v _ _ (by
      intro p hp
      obtain ⟨j, hj, rfl⟩ := mem_cluCands z.clusters 0 p hp
      exact hbest j hj)
  · have hsplit : cluCands 0 z.clusters
        = cluCands 0 (z.clusters.take b)
          ++ ((0 + b, (z.clusters.getD b default).center)
              :: cluCands (0 + b + 1) (z.clusters.drop (b + 1))) := by
      rw [cluCands_split z.clusters b 0 (le_of_lt hb), drop_cons4 z.clusters b hb]
      rfl
    rw [hsplit, nFold_champion v _ _ _ _ (hstrict 0 hbpos) ?h1]
    case h1 =>
      intro q hq
      obtain ⟨j, hj, rfl⟩ := mem_cluCands (z.clusters.take b) 0 q hq
      have hjb : j < b := by
        have h4 := hj
        simp [List.length_take] at h4
        omega
      rw [getD_take4 z.clusters b j hjb]
      exact hstrict j hjb
    rw [nFold_stay v _ _ ?h2]
    case h2 =>
      intro q hq
      obtain ⟨j, hj, rfl⟩ := mem_cluCands (z.clusters.drop (b + 1)) (0 + b + 1) q hq
      have hjs : b + 1 + j < z.cluster_size := by
        have h4 := hj
        simp [List.length_drop] at h4
        have h5 : b < z.clusters.length := hb
        have h6 : z.cluster_size = z.clusters.length := rfl
        omega
      rw [getD_drop4 z.clusters (b + 1) j]
      exact hbest (b + 1 + j) hjs
    rw [show (0 : Nat) + b = b from by omega]
    rfl

theorem classifier_none (z : categories) (v opt : Nat)
    (h : ceilScan z.clusters v = none) :
    classifier z v opt
      = classifierContinue z v opt (z.cluster_size - 1)
          (sub16 v (z.cluster_center (z.cluster_size - 1))) := by
  unfold classifier
  rw [h]

theorem classifier_some (z : categories) (v opt ci : Nat)
    (h : ceilScan z.clusters v = some ci) :
    classifier z v opt =
      (if z.cluster_floor ci ≤ v then (true, ci, z.cluster_center ci)
       else if ci = 0 then classifierContinue z v opt 0 (sub16 (z.cluster_center 0) v)
       else if sub16 (z.cluster_center ci) v < sub16 v (z.cluster_center (ci - 1))
         then classifierContinue z v opt ci (sub16 (z.cluster_center ci) v)
         else classifierContinue z v opt (ci - 1) (sub16 v (z.cluster_center (ci - 1)))) := by
  unfold classifier
  rw [h]

/-- C4.  For a value lying inside no cluster range (clusters ascending and
well-formed, all centers and the value below `2^16`), the classifier answers
`near = true` exactly when the distance to the claim's nearest category --
clusters then aggregations, aggregation `k` reported as combined index
`cluster_size + k`, a candidate adopted only at strictly smaller distance --
is strictly below the returned `cat_val >>> option`; and whenever it answers
`near = false`, the returned `(cat_ind, cat_val)` is exactly that nearest
category. -/
theorem c4_classifier_nearest (z : categories) (v_val opt : Nat)
    (hsz : 1 ≤ z.cluster_size)
    (hv : v_val < 65536)
    (hc16 : ∀ i, i < z.cluster_size → z.cluster_center i < 65536)
    (hctr : ∀ i, i < z.cluster_size →
      z.cluster_floor i ≤ z.cluster_center i ∧ z.cluster_center i < z.cluster_ceil i)
    (hsort : ∀ j, j < z.cluster_size → ∀ i, i < j → z.cluster_ceil i ≤ z.cluster_floor j)
    (hout : ∀ i, i < z.cluster_size → v_val < z.cluster_floor i ∨ z.cluster_ceil i ≤ v_val) :
    ((classifier z v_val opt).1 = true ↔
      (specNearestCat z v_val).2.2 < (classifier z v_val opt).2.2 >>> opt) ∧
    ((classifier z v_val opt).1 = false →
      (classifier z v_val opt).2
        = ((specNearestCat z v_val).1, (specNearestCat z v_val).2.1)) := by
  obtain ⟨b, hb, hcode, hfold⟩ :
      ∃ b, b < z.cluster_size ∧
        classifier z v_val opt
          = classifierContinue z v_val opt b (dist v_val (z.cluster_center b)) ∧
        nFold v_val (cluCands 0 z.clusters)
            (0, z.cluster_center 0, dist v_val (z.cluster_center 0))
          = (b, z.cluster_center b, dist v_val (z.cluster_center b)) := by
    rcases hscan : ceilScan z.clusters v_val with _ | cat_ind
    · -- v_val lies above every cluster ceiling: champion is the last cluster
      have hup : ∀ j, j < z.cluster_size → z.cluster_center j < v_val := by
        intro j hj
        have hcc := hctr j hj
        have hnc : ¬ v_val < z.cluster_ceil j := ceilScan_none v_val z.clusters hscan j hj
        omega
      refine ⟨z.cluster_size - 1, by omega, ?_, ?_⟩
      · rw [classifier_none z v_val opt hscan]
        have hlt := hup (z.cluster_size - 1) (by omega)
        have he : sub16 v_val (z.cluster_center (z.cluster_size - 1))
            = dist v_val (z.cluster_center (z.cluster_size - 1)) := by
          rw [sub16_of_le _ _ hv (le_of_lt hlt)]
          unfold dist
          rw [if_pos hlt]
        rw [he]
      · apply nFold_cluster_argmin z v_val _ (by omega)
        · intro j hj
          have h1 := hup j hj
          have h2 := hup (z.cluster_size - 1) (by omega)
          have h3 : z.cluster_center j ≤ z.cluster_center (z.cluster_size - 1) := by
            rcases Nat.lt_or_ge j (z.cluster_size - 1) with h4 | h4
            · exact le_of_lt (center_lt_center z hctr hsort h4 (by omega))
            · have h5 : j = z.cluster_size - 1 := by omega
              rw [h5]
          unfold dist
          split_ifs <;> omega
        · intro j hj
          have h1 := hup j (by omega)
          have h2 := hup (z.cluster_size - 1) (by omega)
          have h3 := center_lt_center z hctr hsort hj (by omega)
          unfold dist
          split_ifs <;> omega
    · -- v_val lies below the ceiling of cluster `cat_ind` and below its floor
      obtain ⟨hlt0, hceil0, hprev⟩ := ceilScan_some_spec v_val z.clusters cat_ind hscan
      have hlt : cat_ind < z.cluster_size := hlt0
      have hceil : v_val < z.cluster_ceil cat_ind := hceil0
      have hlow : v_val < z.cluster_floor cat_ind := by
        rcases hout cat_ind hlt with h | h
        · exact h
        · omega
      have habove : ∀ j, j < cat_ind → z.cluster_center j < v_val := by
        intro j hj
        have hcc := hctr j (by omega)
        have hnc : ¬ v_val < z.cluster_ceil j := hprev j hj
        omega
      have hbelow : ∀ j, cat_ind ≤ j → j < z.cluster_size → v_val < z.cluster_center j := by
        intro j hj1 hj2
        have hcc := hctr cat_ind hlt
        rcases Nat.eq_or_lt_of_le hj1 with rfl | h
        · omega
        · have h4 := center_lt_center z hctr hsort h hj2
          omega
      have hne : ¬ z.cluster_floor cat_ind ≤ v_val := by omega
      rcases Nat.eq_zero_or_pos cat_ind with rfl | hcpos
      · -- the lowest cluster is the champion
        refine ⟨0, by omega, ?_, ?_⟩
        · rw [classifier_some z v_val opt 0 hscan, if_neg hne, if_pos rfl]
          have h0 : v_val < z.cluster_center 0 := hbelow 0 (le_refl 0) (by omega)
          have he : sub16 (z.cluster_center 0) v_val = dist v_val (z.cluster_center 0) := by
            rw [sub16_of_le _ _ (hc16 0 (by omega)) (le_of_lt h0)]
            unfold dist
            rw [if_neg (by omega : ¬ v_val > z.cluster_center 0)]
          rw [he]
        · apply nFold_cluster_argmin z v_val 0 (by omega)
          · intro j hj
            have h0 := hbelow 0 (le_refl 0) (by omega)
            have hj0 := hbelow j (Nat.zero_le j) hj
            have h3 : z.cluster_center 0 ≤ z.cluster_center j := by
              rcases Nat.eq_zero_or_pos j with rfl | hjp
              · exact le_refl _
              · exact le_of_lt (center_lt_center z hctr hsort hjp hj)
            unfold dist
            split_ifs <;> omega
          · intro j hj
            exact absurd hj (Nat.not_lt_zero j)
      · -- v_val sits between clusters `cat_ind - 1` and `cat_ind`
        have hc1 : v_val < z.cluster_center cat_ind := hbelow cat_ind (le_refl _) hlt
        have hc2 : z.cluster_center (cat_ind - 1) < v_val := habove (cat_ind - 1) (by omega)
        have hd1 : sub16 (z.cluster_center cat_ind) v_val
            = dist v_val (z.cluster_center cat_ind) := by
          rw [sub16_of_le _ _ (hc16 cat_ind hlt) (le_of_lt hc1)]
          unfold dist
          rw [if_neg (by omega : ¬ v_val > z.cluster_center cat_ind)]
        have hd2 : sub16 v_val (z.cluster_center (cat_ind - 1))
            = dist v_val (z.cluster_center (cat_ind - 1)) := by
          rw [sub16_of_le _ _ hv (le_of_lt hc2)]
          unfold dist
          rw [if_pos hc2]
        by_cases hcmp : sub16 (z.cluster_center cat_ind) v_val
            < sub16 v_val (z.cluster_center (cat_ind - 1))
        · -- the cluster above is strictly nearer
          have hcmp2 : dist v_val (z.cluster_center cat_ind)
              < dist v_val (z.cluster_center (cat_ind - 1)) := by
            rw [← hd1, ← hd2]; exact hcmp
          refine ⟨cat_ind, hlt, ?_, ?_⟩
          · rw [classifier_some z v_val opt cat_ind hscan, if_neg hne,
              if_neg (by omega : ¬ cat_ind = 0), if_pos hcmp, hd1]
          · apply nFold_cluster_argmin z v_val cat_ind hlt
            · intro j hj
              rcases Nat.lt_trichotomy j cat_ind with h | rfl | h
              · have hja := habove j h
                have h3 : z.cluster_center j ≤ z.cluster_center (cat_ind - 1) := by
                  rcases Nat.lt_or_ge j (cat_ind - 1) with h4 | h4
                  · exact le_of_lt (center_lt_center z hctr hsort h4 (by omega))
                  · have h5 : j = cat_ind - 1 := by omega
                    rw [h5]
                have h5 := hcmp2
                unfold dist at h5 ⊢
                split_ifs at h5 ⊢ <;> omega
              · exact lt_irrefl _
              · have hjb := hbelow j (by omega) hj
                have h3 := center_lt_center z hctr hsort h hj
                unfold dist
                split_ifs <;> omega
            · intro j hj
              have hja := habove j hj
              have h3 : z.cluster_center j ≤ z.cluster_center (cat_ind - 1) := by
                rcases Nat.lt_or_ge j (cat_ind - 1) with h4 | h4
                · exact le_of_lt (center_lt_center z hctr hsort h4 (by omega))
                · have h5 : j = cat_ind - 1 := by omega
                  rw [h5]
              have h5 := hcmp2
              unfold dist at h5 ⊢
              split_ifs at h5 ⊢ <;> omega
        · -- the cluster below is adopted (ties favour the lower index)
          have hcmp2 : ¬ dist v_val (z.cluster_center cat_ind)
              < dist v_val (z.cluster_center (cat_ind - 1)) := by
            rw [← hd1, ← hd2]; exact hcmp
          refine ⟨cat_ind - 1, by omega, ?_, ?_⟩
          · rw [classifier_some z v_val opt cat_ind hscan, if_neg hne,
              if_neg (by omega : ¬ cat_ind = 0), if_neg hcmp, hd2]
          · apply nFold_cluster_argmin z v_val (cat_ind - 1) (by omega)
            · intro j hj
              rcases Nat.lt_trichotomy j (cat_ind - 1) with h | rfl | h
              · have hja := habove j (by omega)
                have h3 := center_lt_center z hctr hsort h (by omega)
                unfold dist
                split_ifs <;> omega
              · exact lt_irrefl _
              · have hjb := hbelow j (by omega) hj
                have h3 : z.cluster_center cat_ind ≤ z.cluster_center j := by
                  rcases Nat.lt_or_ge cat_ind j with h4 | h4
                  · exact le_of_lt (center_lt_center z hctr hsort h4 hj)
                  · have h5 : j = cat_ind := by omega
                    rw [h5]
                have h5 := hcmp2
                unfold dist at h5 ⊢
                split_ifs at h5 ⊢ <;> omega
            · intro j hj
              have hja := habove j (by omega)
              have h3 := center_lt_center z hctr hsort hj (by omega)
              unfold dist
              split_ifs <;> omega
  have hN : specNearestCat z v_val
      = nFold v_val (aggCands z.cluster_size 0 z.aggreg_center)
          (b, z.cluster_center b, dist v_val (z.cluster_center b)) := by
    unfold specNearestCat catCands
    rw [nFold_append, hfold]
  have hAg : aggregScan v_val z.cluster_size z.aggreg_center 0
        (b, z.cluster_center b, dist v_val (z.cluster_center b))
      = specNearestCat z v_val := by
    rw [hN, aggregScan_eq_nFold]
  rw [hcode]
  unfold classifierContinue
  by_cases hee : dist v_val (z.cluster_center b) < z.cluster_center b >>> opt
  · rw [if_pos hee]
    refine ⟨⟨fun _ => ?_, fun _ => rfl⟩, fun hfalse => Bool.noConfusion hfalse⟩
    have h1 : (specNearestCat z v_val).2.2 ≤ dist v_val (z.cluster_center b) := by
      rw [hN]; exact nFold_delta_le _ _ _
    exact lt_of_le_of_lt h1 hee
  · rw [if_neg hee]
    unfold classifierFinish
    rw [hAg]
    by_cases hr : (specNearestCat z v_val).2.2 < (specNearestCat z v_val).2.1 >>> opt
    · rw [if_pos hr]
      exact ⟨⟨fun _ => hr, fun _ => rfl⟩, fun hfalse => Bool.noConfusion hfalse⟩
    · rw [if_neg hr]
      exact ⟨⟨fun htrue => Bool.noConfusion htrue, fun hcon => absurd hcon hr⟩,
        fun _ => rfl⟩

/-- C4 witness category set: two clusters and one aggregation. -/
def z4 : categories :=
  { clusters := [⟨5, 100, 110, 130⟩, ⟨4, 200, 210, 240⟩], outlier_ind := [],
    aggreg_size_1 := 0, aggreg_center := [400], separator_barrier := 0,
    inlier_count := 0 }

/-- C4 witness: `150` lies in no cluster range, its nearest category is
cluster 0 (center 110, distance 40), the distance is not below
`110 >>> 2 = 27`, so the classifier refuses yet reports that category. -/
theorem c4_classifier_nearest_witness :
    (classifier z4 150 2).1 = false ∧
    (classifier z4 150 2).2 = ((specNearestCat z4 150).1, (specNearestCat z4 150).2.1) :=
  ⟨by decide,
   (c4_classifier_nearest z4 150 2 (by decide) (by decide) (by decide) (by decide)
      (by decide) (by decide)).2 (by decide)⟩

/-! ### C1: the claimed category-set invariants -/

/-- the claim's invariant on an emitted category set: ascending
non-overlapping clusters, every cluster count at least `MIN_SIZE`, and the
three size bounds. -/
def c1Inv (z : categories) : Prop :=
  (∀ j, j < z.cluster_size → ∀ i, i < j → z.cluster_ceil i ≤ z.cluster_floor j) ∧
  (∀ i, i < z.cluster_size → 3 ≤ z.cluster_count i) ∧
  z.cluster_size ≤ 8 ∧ z.aggreg_size_2 ≤ 8 ∧ z.outlier_size ≤ 16

/-- C1 failing input: an odd-length trace (`sequence_length = 87`).  The
HIGH durations form one cluster at 400, the LOW durations one cluster at
1200 plus fourteen interior outliers; the values 7000/7400/7800 sit at the
even positions 80/82/84, which the HIGH clusterer's border cool-down visits
because the jump `v_ind := v_stop - BORDER_WIDTH + 2` flips parity on an
odd-length sequence. -/
def vC1 : List Nat := [0,400,1200,400,1200,400,1200,400,1200,400,3000,400,3140,400,3290,400,3820,400,4000,400,4190,400,4870,400,5100,400,5340,400,7880,400,8250,400,8640,400,10000,400,12000,400,1200,400,1200,400,1200,400,1200,400,1200,400,1200,400,1200,400,1200,400,1200,400,1200,400,1200,400,1200,400,1200,400,1200,400,1200,400,1200,400,1200,400,1200,400,1200,400,1200,400,1200,400,7000,1200,7400,1200,7800,1200,400,1200,80,65000]

/-- C1.  Counterexample: the categorizer returns code 0 on `vC1` yet the
emitted LOW category set violates the claimed invariant -- its outlier
table holds 17 entries (the bound is `NO = 16`).  The three even-indexed
border outliers recorded by the HIGH clusterer are reassigned to the LOW
set by the corrector's parity split `z[ind & LSB]`, which performs no
bound check. -/
theorem c1_invariant_violated :
    (categorizer vC1 87 0).rc = 0 ∧
    (categorizer vC1 87 0).zL.outlier_size = 17 ∧
    ¬ c1Inv (categorizer vC1 87 0).zL := by
  refine ⟨by decide, by decide, ?_⟩
  intro h
  exact absurd (h.2.2.2.2) (by decide)

end OOK
